import Mathlib

/-! The PodManager reconciler of pod-manager-operator.

A shallow embedding of `api/v1/podmanager_types.go` and
`controllers/podmanager_controller.go`.

* Go structs become Lean structures with the Go field names.
* `int32` values are carried as `Int`; the program copies and compares them and
  performs a single conversion, `int32(len(pods.Items))`, which is embedded with
  its two's-complement wrap-around (`int32OfInt`).
* Go maps with string keys are association lists.
* The embedded `client.Client` is an interface in the source, so the reconciler
  is parameterised by an arbitrary client over an arbitrary store type. Every
  call made through the client is appended to a trace together with its reply,
  which is what the statements about "store calls" talk about.
* A nil-pointer dereference is the outcome `panicked`.
* Statements about what the store holds after a run are made over an in-memory
  implementation of the client interface (`memClient`), which follows the State
  Store Client of the specification, section 6.
-/

set_option autoImplicit false
set_option linter.dupNamespace false

namespace PodManagerOperator

/-! ## Kubernetes object types (the fields this program reads or writes) -/

/-- The `metav1.TypeMeta` of an object. -/
structure TypeMeta where
  Kind : String
  APIVersion : String
  deriving DecidableEq, Repr, Inhabited

/-- The `metav1.OwnerReference` of an owned object; `*bool` is `Option Bool`. -/
structure OwnerReference where
  APIVersion : String
  Kind : String
  Name : String
  UID : String
  Controller : Option Bool
  BlockOwnerDeletion : Option Bool
  deriving DecidableEq, Repr, Inhabited

/-- The `metav1.ObjectMeta` of an object. -/
structure ObjectMeta where
  Name : String
  Namespace : String
  UID : String
  ResourceVersion : String
  Labels : List (String × String)
  OwnerReferences : List OwnerReference
  deriving DecidableEq, Repr, Inhabited

/-- The zero value of `metav1.ObjectMeta`. -/
def ObjectMeta.zero : ObjectMeta :=
  { Name := "", Namespace := "", UID := "", ResourceVersion := "", Labels := [],
    OwnerReferences := [] }

/-- The `types.NamespacedName` key of an object. -/
structure NamespacedName where
  Namespace : String
  Name : String
  deriving DecidableEq, Repr, Inhabited

/-- The `ctrl.Request` handed to `Reconcile`. -/
structure Request where
  NamespacedName : NamespacedName
  deriving DecidableEq, Repr, Inhabited

/-- The `ctrl.Result` returned by `Reconcile`; the zero value is `ctrl.Result{}`. -/
structure Result where
  Requeue : Bool
  RequeueAfter : Int
  deriving DecidableEq, Repr, Inhabited

/-- The value `ctrl.Result{}`. -/
def Result.zero : Result := { Requeue := false, RequeueAfter := 0 }

/-! ## api/v1/podmanager_types.go -/

/-- PodManagerSpec defines the desired state of PodManager. -/
structure PodManagerSpec where
  Replicas : Int
  RestartPolicy : String
  deriving DecidableEq, Repr, Inhabited

/-- PodManagerStatus defines the observed state of PodManager. -/
structure PodManagerStatus where
  AvailableReplicas : Int
  Status : String
  deriving DecidableEq, Repr, Inhabited

/-- PodManager is the Schema for the podmanagers API. -/
structure PodManager where
  TypeMeta : TypeMeta
  ObjectMeta : ObjectMeta
  Spec : PodManagerSpec
  Status : PodManagerStatus
  deriving DecidableEq, Repr, Inhabited

/-- The promoted field `podManager.Name`. -/
abbrev PodManager.Name (m : PodManager) : String := m.ObjectMeta.Name

/-- The promoted field `podManager.Namespace`. -/
abbrev PodManager.Namespace (m : PodManager) : String := m.ObjectMeta.Namespace

/-! ## The workload types of `appsv1` and `corev1` -/

/-- A `corev1.ContainerPort`. -/
structure ContainerPort where
  Name : String
  ContainerPort : Int
  deriving DecidableEq, Repr, Inhabited

/-- A `corev1.Container`. -/
structure Container where
  Name : String
  Image : String
  Ports : List ContainerPort
  deriving DecidableEq, Repr, Inhabited

/-- A `corev1.PodSpec`; `corev1.RestartPolicy` is a string type. -/
structure PodSpec where
  Containers : List Container
  RestartPolicy : String
  deriving DecidableEq, Repr, Inhabited

/-- A `corev1.PodTemplateSpec`. -/
structure PodTemplateSpec where
  ObjectMeta : ObjectMeta
  Spec : PodSpec
  deriving DecidableEq, Repr, Inhabited

/-- A `metav1.LabelSelector`. -/
structure LabelSelector where
  MatchLabels : List (String × String)
  deriving DecidableEq, Repr, Inhabited

/-- An `appsv1.DeploymentSpec`; `Replicas *int32` and `Selector *LabelSelector`
are pointers, hence options. -/
structure DeploymentSpec where
  Replicas : Option Int
  Selector : Option LabelSelector
  Template : PodTemplateSpec
  deriving DecidableEq, Repr, Inhabited

/-- An `appsv1.Deployment`. -/
structure Deployment where
  ObjectMeta : ObjectMeta
  Spec : DeploymentSpec
  deriving DecidableEq, Repr, Inhabited

/-- The promoted field `deployment.Name`. -/
abbrev Deployment.Name (d : Deployment) : String := d.ObjectMeta.Name

/-- The promoted field `deployment.Namespace`. -/
abbrev Deployment.Namespace (d : Deployment) : String := d.ObjectMeta.Namespace

/-- A `corev1.Pod`. -/
structure Pod where
  ObjectMeta : ObjectMeta
  Spec : PodSpec
  deriving DecidableEq, Repr, Inhabited

/-- The constant `corev1.RestartPolicyAlways`. -/
def RestartPolicyAlways : String := "Always"

/-- The constant `corev1.RestartPolicyOnFailure`. -/
def RestartPolicyOnFailure : String := "OnFailure"

/-- The constant `corev1.RestartPolicyNever`. -/
def RestartPolicyNever : String := "Never"

/-- The helper `pointer.Int32Ptr`. -/
def Int32Ptr (i : Int) : Option Int := some i

/-- The Go conversion `int32(n)` of an `int`: the low 32 bits of `n`, read as a
signed two's-complement number. -/
def int32OfInt (n : Int) : Int :=
  let low : Nat := (n % 4294967296).toNat
  if 2147483648 ≤ low then (low : Int) - 4294967296 else (low : Int)

/-! ## The library call `ctrl.SetControllerReference`

The call at line 165 goes to controller-runtime, which is not part of this
repository. The definitions of this section follow what that library does for an
owner and an object of these two kinds. -/

/-- A `schema.GroupVersionKind`, with group and version already joined. -/
structure GroupVersionKind where
  APIVersion : String
  Kind : String
  deriving DecidableEq, Repr, Inhabited

/-- The part of `runtime.Scheme` the program consults: the kinds registered for
the Go type `PodManager`. -/
structure Scheme where
  ObjectKinds : List GroupVersionKind
  deriving DecidableEq, Repr, Inhabited

/-- The lookup `apiutil.GVKForObject` for a `PodManager`: the one registered kind;
among several registered kinds, the kind the object's own `TypeMeta` names, when
it names one of them. -/
def GVKForObject (obj : PodManager) (scheme : Scheme) : Except String GroupVersionKind :=
  match scheme.ObjectKinds with
  | [] => .error "no kind is registered for the type"
  | [gvk] => .ok gvk
  | gvks =>
    let currentGVK : GroupVersionKind :=
      { APIVersion := obj.TypeMeta.APIVersion, Kind := obj.TypeMeta.Kind }
    if currentGVK.APIVersion = "" ∧ currentGVK.Kind = "" then
      .error "multiple group-version-kinds associated with type"
    else if currentGVK ∈ gvks then .ok currentGVK
    else .error "the supplied group-version-kind was not found in the scheme"

/-- The check `validateOwner` of controller-runtime. -/
def validateOwner (owner : PodManager) (object : Deployment) : Except String Unit :=
  if owner.Namespace ≠ "" then
    if object.Namespace = "" then
      .error "cluster-scoped resource must not have a namespace-scoped owner"
    else if owner.Namespace ≠ object.Namespace then
      .error "cross-namespace owner references are disallowed"
    else .ok ()
  else .ok ()

/-- Two owner references name the same owner. -/
def referSameObject (a b : OwnerReference) : Bool :=
  a.APIVersion == b.APIVersion && a.Kind == b.Kind && a.Name == b.Name

/-- The helper `upsertOwnerRef`: replace the reference to the same owner, or append. -/
def upsertOwnerRef (ref : OwnerReference) (owners : List OwnerReference) :
    List OwnerReference :=
  if owners.any (referSameObject ref) then
    owners.map (fun o => if referSameObject ref o then ref else o)
  else owners ++ [ref]

/-- Modelled from the spec: the ownership back-reference of sections 3 and 4.2 is
set by the library function `ctrl.SetControllerReference(owner, controlled,
scheme)`, which is outside this repository. On success the controlled object
carries a controller reference to the owner; on failure it is left as it was. -/
def SetControllerReference (owner : PodManager) (controlled : Deployment)
    (scheme : Scheme) : Except String Deployment :=
  match validateOwner owner controlled with
  | .error e => .error e
  | .ok () =>
    match GVKForObject owner scheme with
    | .error e => .error e
    | .ok gvk =>
      let ref : OwnerReference :=
        { APIVersion := gvk.APIVersion, Kind := gvk.Kind, Name := owner.Name,
          UID := owner.ObjectMeta.UID, BlockOwnerDeletion := some true,
          Controller := some true }
      if controlled.ObjectMeta.OwnerReferences.any
          (fun o => o.Controller == some true && !referSameObject ref o) then
        .error "object is already owned by another controller"
      else
        .ok { controlled with
              ObjectMeta := { controlled.ObjectMeta with
                OwnerReferences := upsertOwnerRef ref controlled.ObjectMeta.OwnerReferences } }

/-! ## controllers/podmanager_controller.go: deploymentForPodManager -/

/-- The function `deploymentForPodManager`, with the receiver's `Scheme` as an
argument. The error of `SetControllerReference` is dropped, as in the source. -/
def deploymentForPodManager (scheme : Scheme) (m : PodManager) : Deployment :=
  let labels : List (String × String) := [("app", m.Name)]
  let restartPolicy : String :=
    if m.Spec.RestartPolicy ≠ "" then m.Spec.RestartPolicy else RestartPolicyAlways
  let dep : Deployment :=
    { ObjectMeta := { ObjectMeta.zero with Name := m.Name, Namespace := m.Namespace }
      Spec :=
        { Replicas := Int32Ptr m.Spec.Replicas
          Selector := some { MatchLabels := labels }
          Template :=
            { ObjectMeta := { ObjectMeta.zero with Labels := labels }
              Spec :=
                { Containers :=
                    [{ Image := "nginx:latest", Name := "nginx",
                       Ports := [{ ContainerPort := 80, Name := "http" }] }]
                  RestartPolicy := restartPolicy } } } }
  match SetControllerReference m dep scheme with
  | .ok dep1 => dep1
  | .error _ => dep

/-! ## The client interface -/

/-- An error value returned by a client call, by its API status reason. -/
inductive StoreError where
  | notFound
  | alreadyExists
  | conflict
  | other (msg : String)
  deriving DecidableEq, Repr, Inhabited

/-- The test `errors.IsNotFound`. -/
def IsNotFound : StoreError → Bool
  | .notFound => true
  | _ => false

/-- The methods of `client.Client` that the reconciler calls, over a store of
type `σ`. `Get` is split by the type of the object it fills; a successful call
hands back the object the Go call writes through its pointer argument. -/
structure Client (σ : Type) where
  GetPodManager : NamespacedName → σ → Except StoreError PodManager × σ
  GetDeployment : NamespacedName → σ → Except StoreError Deployment × σ
  Create : Deployment → σ → Except StoreError Deployment × σ
  Update : Deployment → σ → Except StoreError Deployment × σ
  List : String → List (String × String) → σ → Except StoreError (List Pod) × σ
  StatusUpdate : PodManager → σ → Except StoreError PodManager × σ

/-- PodManagerReconciler reconciles a PodManager object. -/
structure PodManagerReconciler (σ : Type) where
  Client : Client σ
  Scheme : Scheme

/-- A call made through the client, with its arguments. -/
inductive Call where
  | getPodManager (key : NamespacedName)
  | getDeployment (key : NamespacedName)
  | create (obj : Deployment)
  | update (obj : Deployment)
  | list (inNamespace : String) (matchingLabels : List (String × String))
  | statusUpdate (obj : PodManager)
  deriving DecidableEq, Repr, Inhabited

/-- What a call came back with. -/
inductive Reply where
  | failed (err : StoreError)
  | podManager (obj : PodManager)
  | deployment (obj : Deployment)
  | podList (items : List Pod)
  deriving DecidableEq, Repr, Inhabited

/-- One entry of the call trace. -/
structure Event where
  call : Call
  reply : Reply
  deriving DecidableEq, Repr, Inhabited

/-- The calls that write to the store: Create, Update and the status Update. -/
def Call.isMutating : Call → Bool
  | .create _ => true
  | .update _ => true
  | .statusUpdate _ => true
  | _ => false

/-- The call is the status Update. -/
def Call.isStatusUpdate : Call → Bool
  | .statusUpdate _ => true
  | _ => false

/-- The call is a write of a Deployment: Create or Update. -/
def Call.isDeploymentWrite : Call → Bool
  | .create _ => true
  | .update _ => true
  | _ => false

/-- How an invocation of `Reconcile` ends. -/
inductive Outcome where
  | returned (result : Result) (err : Option StoreError)
  | panicked
  deriving DecidableEq, Repr, Inhabited

/-- An invocation of `Reconcile`: how it ended, the calls it made in order, and
the store it left. -/
structure Run (σ : Type) where
  outcome : Outcome
  trace : List Event
  store : σ

/-! ## controllers/podmanager_controller.go: Reconcile -/

/-- Lines 94-122 of `Reconcile`: the status update, then the final return. -/
def reconcileStatus {σ : Type} (r : PodManagerReconciler σ) (req : Request)
    (podManager : PodManager) (tr : List Event) (s : σ) : Run σ :=
  if podManager.Spec.RestartPolicy ≠ "" then
    let listCall := Call.list podManager.Namespace [("app", podManager.Name)]
    match r.Client.List podManager.Namespace [("app", podManager.Name)] s with
    | (.error err, s1) =>
      ⟨.returned Result.zero (some err), tr ++ [⟨listCall, .failed err⟩], s1⟩
    | (.ok pods, s1) =>
      let tr1 := tr ++ [⟨listCall, .podList pods⟩]
      match r.Client.GetPodManager req.NamespacedName s1 with
      | (.error err, s2) =>
        ⟨.returned Result.zero (some err),
          tr1 ++ [⟨.getPodManager req.NamespacedName, .failed err⟩], s2⟩
      | (.ok latestPodManager, s2) =>
        let tr2 := tr1 ++ [⟨.getPodManager req.NamespacedName, .podManager latestPodManager⟩]
        let latestPodManager1 : PodManager :=
          { latestPodManager with
            Status := { latestPodManager.Status with
              AvailableReplicas := int32OfInt (pods.length : Int) } }
        let latestPodManager2 : PodManager :=
          { latestPodManager1 with
            Status := { latestPodManager1.Status with Status := "Running" } }
        match r.Client.StatusUpdate latestPodManager2 s2 with
        | (.error err, s3) =>
          ⟨.returned { Result.zero with Requeue := true } (some err),
            tr2 ++ [⟨.statusUpdate latestPodManager2, .failed err⟩], s3⟩
        | (.ok stored, s3) =>
          ⟨.returned Result.zero none,
            tr2 ++ [⟨.statusUpdate latestPodManager2, .podManager stored⟩], s3⟩
  else ⟨.returned Result.zero none, tr, s⟩

/-- Lines 83-92 of `Reconcile`: the scaling of the Deployment, then the rest. -/
def reconcileScale {σ : Type} (r : PodManagerReconciler σ) (req : Request)
    (podManager : PodManager) (deployment : Deployment) (tr : List Event) (s : σ) : Run σ :=
  match deployment.Spec.Replicas with
  | none => ⟨.panicked, tr, s⟩
  | some current =>
    if current ≠ podManager.Spec.Replicas then
      let deployment1 : Deployment :=
        { deployment with
          Spec := { deployment.Spec with Replicas := Int32Ptr podManager.Spec.Replicas } }
      match r.Client.Update deployment1 s with
      | (.error err, s1) =>
        ⟨.returned Result.zero (some err), tr ++ [⟨.update deployment1, .failed err⟩], s1⟩
      | (.ok stored, s1) =>
        reconcileStatus r req podManager (tr ++ [⟨.update deployment1, .deployment stored⟩]) s1
    else reconcileStatus r req podManager tr s

/-- The function `Reconcile` (lines 49-81, continued by `reconcileScale` and
`reconcileStatus`). Logging is left out. -/
def Reconcile {σ : Type} (r : PodManagerReconciler σ) (req : Request) (s : σ) : Run σ :=
  match r.Client.GetPodManager req.NamespacedName s with
  | (.error err, s1) =>
    if IsNotFound err then
      ⟨.returned Result.zero none, [⟨.getPodManager req.NamespacedName, .failed err⟩], s1⟩
    else
      ⟨.returned Result.zero (some err),
        [⟨.getPodManager req.NamespacedName, .failed err⟩], s1⟩
  | (.ok podManager, s1) =>
    let tr1 : List Event := [⟨.getPodManager req.NamespacedName, .podManager podManager⟩]
    let key : NamespacedName := { Name := podManager.Name, Namespace := podManager.Namespace }
    match r.Client.GetDeployment key s1 with
    | (.error err, s2) =>
      let tr2 := tr1 ++ [⟨.getDeployment key, .failed err⟩]
      if IsNotFound err then
        let deployment := deploymentForPodManager r.Scheme podManager
        match r.Client.Create deployment s2 with
        | (.error err1, s3) =>
          ⟨.returned Result.zero (some err1), tr2 ++ [⟨.create deployment, .failed err1⟩], s3⟩
        | (.ok created, s3) =>
          reconcileScale r req podManager created
            (tr2 ++ [⟨.create deployment, .deployment created⟩]) s3
      else ⟨.returned Result.zero (some err), tr2, s2⟩
    | (.ok deployment, s2) =>
      reconcileScale r req podManager deployment
        (tr1 ++ [⟨.getDeployment key, .deployment deployment⟩]) s2

/-! ## An in-memory store -/

/-- The key of an object. -/
def keyOf (m : ObjectMeta) : NamespacedName := { Namespace := m.Namespace, Name := m.Name }

/-- Every pair of the selector is a label of the object. -/
def matchesLabels (selector labels : List (String × String)) : Bool :=
  selector.all (fun kv => labels.lookup kv.1 == some kv.2)

/-- Modelled from the spec: the State Store Client of section 6 is outside this
repository; this is its state, the objects of the three kinds the reconciler
touches. -/
structure Store where
  PodManagers : List PodManager
  Deployments : List Deployment
  Pods : List Pod
  deriving DecidableEq, Repr, Inhabited

/-- The PodManager stored under a key. -/
def Store.getPodManager (s : Store) (key : NamespacedName) : Option PodManager :=
  s.PodManagers.find? (fun o => keyOf o.ObjectMeta == key)

/-- The Deployment stored under a key. -/
def Store.getDeployment (s : Store) (key : NamespacedName) : Option Deployment :=
  s.Deployments.find? (fun o => keyOf o.ObjectMeta == key)

/-- The pods of a namespace that carry the given labels. -/
def Store.listPods (s : Store) (ns : String) (labels : List (String × String)) : List Pod :=
  s.Pods.filter (fun p => p.ObjectMeta.Namespace == ns && matchesLabels labels p.ObjectMeta.Labels)

/-- Add a Deployment to the store. -/
def Store.addDeployment (s : Store) (obj : Deployment) : Store :=
  { s with Deployments := s.Deployments ++ [obj] }

/-- Replace the Deployment stored under the key of `obj` by `obj`. -/
def Store.putDeployment (s : Store) (obj : Deployment) : Store :=
  { s with Deployments :=
      s.Deployments.map (fun o => if keyOf o.ObjectMeta == keyOf obj.ObjectMeta then obj else o) }

/-- Replace the status, and nothing else, of the PodManager stored under the key
of `obj` by the status of `obj`. -/
def Store.putStatus (s : Store) (obj : PodManager) : Store :=
  { s with PodManagers :=
      s.PodManagers.map (fun o =>
        if keyOf o.ObjectMeta == keyOf obj.ObjectMeta then { o with Status := obj.Status } else o) }

/-- Modelled from the spec: the State Store Client of section 6 over the
in-memory store. `Get` answers NotFound for an absent key, `Create` answers
AlreadyExists for a present one, `Update` and `UpdateStatus` answer NotFound for
an absent one, and `UpdateStatus` writes the status subresource only. -/
def memClient : Client Store where
  GetPodManager key s :=
    match s.getPodManager key with
    | some o => (.ok o, s)
    | none => (.error .notFound, s)
  GetDeployment key s :=
    match s.getDeployment key with
    | some o => (.ok o, s)
    | none => (.error .notFound, s)
  Create obj s :=
    match s.getDeployment (keyOf obj.ObjectMeta) with
    | some _ => (.error .alreadyExists, s)
    | none => (.ok obj, s.addDeployment obj)
  Update obj s :=
    match s.getDeployment (keyOf obj.ObjectMeta) with
    | some _ => (.ok obj, s.putDeployment obj)
    | none => (.error .notFound, s)
  List ns labels s := (.ok (s.listPods ns labels), s)
  StatusUpdate obj s :=
    match s.getPodManager (keyOf obj.ObjectMeta) with
    | some o => (.ok { o with Status := obj.Status }, s.putStatus obj)
    | none => (.error .notFound, s)

/-- The in-memory client with failures injected: a call for which `fault` gives
an error fails with it and leaves the store alone. -/
def faultyClient (fault : Call → Option StoreError) : Client Store where
  GetPodManager key s :=
    match fault (.getPodManager key) with
    | some err => (.error err, s)
    | none => memClient.GetPodManager key s
  GetDeployment key s :=
    match fault (.getDeployment key) with
    | some err => (.error err, s)
    | none => memClient.GetDeployment key s
  Create obj s :=
    match fault (.create obj) with
    | some err => (.error err, s)
    | none => memClient.Create obj s
  Update obj s :=
    match fault (.update obj) with
    | some err => (.error err, s)
    | none => memClient.Update obj s
  List ns labels s :=
    match fault (.list ns labels) with
    | some err => (.error err, s)
    | none => memClient.List ns labels s
  StatusUpdate obj s :=
    match fault (.statusUpdate obj) with
    | some err => (.error err, s)
    | none => memClient.StatusUpdate obj s

/-- The in-memory client with a concurrent writer: `edit` is applied to the store
right after the pods are listed, that is between the first read of the
PodManager and its re-fetch. -/
def racingClient (edit : Store → Store) : Client Store :=
  { memClient with
    List := fun ns labels s => (.ok (s.listPods ns labels), edit s) }

/-- The reconciler over the in-memory store. -/
def memReconciler (scheme : Scheme) : PodManagerReconciler Store :=
  { Client := memClient, Scheme := scheme }

/-! ## The paths an invocation can take

The three relations below list, for each part of `Reconcile`, the call
sequences it can produce together with the outcome each ends in. They are
specification devices: `Reconcile_path` proves that every run of the embedded
code follows one of them. -/

/-- The object written by the status update when `latest` was re-fetched and
`pods` were listed (lines 113-114). -/
def statusWritten (latest : PodManager) (pods : List Pod) : PodManager :=
  { latest with Status := { AvailableReplicas := int32OfInt (pods.length : Int),
                            Status := "Running" } }

/-- The Deployment sent by the scaling update (line 86). -/
def scaled (deployment : Deployment) (podManager : PodManager) : Deployment :=
  { deployment with Spec := { deployment.Spec with Replicas := some podManager.Spec.Replicas } }

/-- The pod listing of lines 97-101. -/
def listCall (podManager : PodManager) : Call :=
  .list podManager.Namespace [("app", podManager.Name)]

/-- The key of the Deployment read at line 68. -/
def deploymentKey (podManager : PodManager) : NamespacedName :=
  { Name := podManager.Name, Namespace := podManager.Namespace }

/-- The call is a listing of pods. -/
def Call.isList : Call → Bool
  | .list _ _ => true
  | _ => false

/-- The call is a Get of the PodManager. -/
def Call.isGetPodManager : Call → Bool
  | .getPodManager _ => true
  | _ => false

/-- The call reads or writes the Deployment: Get, Create or Update of it. -/
def Call.isWorkloadCall : Call → Bool
  | .getDeployment _ => true
  | .create _ => true
  | .update _ => true
  | _ => false

/-- The calls and outcome of lines 94-122. -/
inductive StatusPath (req : Request) (pm : PodManager) : List Event → Outcome → Prop where
  | skipped (h : pm.Spec.RestartPolicy = "") :
      StatusPath req pm [] (.returned Result.zero none)
  | listFailed (h : pm.Spec.RestartPolicy ≠ "") (err : StoreError) :
      StatusPath req pm [⟨listCall pm, .failed err⟩] (.returned Result.zero (some err))
  | refetchFailed (h : pm.Spec.RestartPolicy ≠ "") (pods : List Pod) (err : StoreError) :
      StatusPath req pm
        [⟨listCall pm, .podList pods⟩, ⟨.getPodManager req.NamespacedName, .failed err⟩]
        (.returned Result.zero (some err))
  | updateFailed (h : pm.Spec.RestartPolicy ≠ "") (pods : List Pod) (latest : PodManager)
      (err : StoreError) :
      StatusPath req pm
        [⟨listCall pm, .podList pods⟩,
         ⟨.getPodManager req.NamespacedName, .podManager latest⟩,
         ⟨.statusUpdate (statusWritten latest pods), .failed err⟩]
        (.returned { Requeue := true, RequeueAfter := 0 } (some err))
  | updated (h : pm.Spec.RestartPolicy ≠ "") (pods : List Pod) (latest stored : PodManager) :
      StatusPath req pm
        [⟨listCall pm, .podList pods⟩,
         ⟨.getPodManager req.NamespacedName, .podManager latest⟩,
         ⟨.statusUpdate (statusWritten latest pods), .podManager stored⟩]
        (.returned Result.zero none)

/-- The calls and outcome of lines 83-122, for the Deployment `d` in hand. -/
inductive ScalePath (req : Request) (pm : PodManager) (d : Deployment) :
    List Event → Outcome → Prop where
  | nilReplicas (h : d.Spec.Replicas = none) : ScalePath req pm d [] .panicked
  | updateFailed (M : Int) (h : d.Spec.Replicas = some M) (hne : M ≠ pm.Spec.Replicas)
      (err : StoreError) :
      ScalePath req pm d [⟨.update (scaled d pm), .failed err⟩]
        (.returned Result.zero (some err))
  | updated (M : Int) (h : d.Spec.Replicas = some M) (hne : M ≠ pm.Spec.Replicas)
      (stored : Deployment) (tail : List Event) (out : Outcome)
      (ht : StatusPath req pm tail out) :
      ScalePath req pm d (⟨.update (scaled d pm), .deployment stored⟩ :: tail) out
  | unchanged (h : d.Spec.Replicas = some pm.Spec.Replicas) (tail : List Event)
      (out : Outcome) (ht : StatusPath req pm tail out) :
      ScalePath req pm d tail out

/-- The calls and outcome of a whole invocation. -/
inductive ReconcilePath (scheme : Scheme) (req : Request) : List Event → Outcome → Prop where
  | gone (err : StoreError) (h : IsNotFound err = true) :
      ReconcilePath scheme req [⟨.getPodManager req.NamespacedName, .failed err⟩]
        (.returned Result.zero none)
  | getFailed (err : StoreError) (h : IsNotFound err = false) :
      ReconcilePath scheme req [⟨.getPodManager req.NamespacedName, .failed err⟩]
        (.returned Result.zero (some err))
  | deploymentGetFailed (pm : PodManager) (err : StoreError) (h : IsNotFound err = false) :
      ReconcilePath scheme req
        [⟨.getPodManager req.NamespacedName, .podManager pm⟩,
         ⟨.getDeployment (deploymentKey pm), .failed err⟩]
        (.returned Result.zero (some err))
  | createFailed (pm : PodManager) (err : StoreError) (h : IsNotFound err = true)
      (err1 : StoreError) :
      ReconcilePath scheme req
        [⟨.getPodManager req.NamespacedName, .podManager pm⟩,
         ⟨.getDeployment (deploymentKey pm), .failed err⟩,
         ⟨.create (deploymentForPodManager scheme pm), .failed err1⟩]
        (.returned Result.zero (some err1))
  | created (pm : PodManager) (err : StoreError) (h : IsNotFound err = true)
      (stored : Deployment) (tail : List Event) (out : Outcome)
      (ht : ScalePath req pm stored tail out) :
      ReconcilePath scheme req
        (⟨.getPodManager req.NamespacedName, .podManager pm⟩ ::
         ⟨.getDeployment (deploymentKey pm), .failed err⟩ ::
         ⟨.create (deploymentForPodManager scheme pm), .deployment stored⟩ :: tail)
        out
  | found (pm : PodManager) (d : Deployment) (tail : List Event) (out : Outcome)
      (ht : ScalePath req pm d tail out) :
      ReconcilePath scheme req
        (⟨.getPodManager req.NamespacedName, .podManager pm⟩ ::
         ⟨.getDeployment (deploymentKey pm), .deployment d⟩ :: tail)
        out

/-! ## Example objects -/

/-- The scheme with the PodManager kind registered, as `main` sets it up. -/
def exampleScheme : Scheme :=
  { ObjectKinds := [{ APIVersion := "example.example.com/v1", Kind := "PodManager" }] }

/-- The resource of the example scenario: `web`, three replicas, restart policy Always. -/
def webManager : PodManager :=
  { TypeMeta := { Kind := "PodManager", APIVersion := "example.example.com/v1" }
    ObjectMeta := { ObjectMeta.zero with Name := "web", Namespace := "default", UID := "uid-web" }
    Spec := { Replicas := 3, RestartPolicy := "Always" }
    Status := { AvailableReplicas := 0, Status := "" } }

/-- The request for `default/web`. -/
def webRequest : Request := { NamespacedName := { Namespace := "default", Name := "web" } }

/-- A resource whose restart policy is none of the three enumerated values. -/
def oddManager : PodManager :=
  { webManager with Spec := { Replicas := 3, RestartPolicy := "Sometimes" } }

/-- A resource with the restart policy left empty. -/
def plainManager : PodManager :=
  { webManager with Spec := { Replicas := 2, RestartPolicy := "" } }

/-- A pod of the `web` workload. -/
def webPod (name : String) : Pod :=
  { ObjectMeta := { ObjectMeta.zero with Name := name, Namespace := "default",
                                         Labels := [("app", "web")] }
    Spec := { Containers := [], RestartPolicy := "Always" } }

/-- A store holding nothing. -/
def emptyStore : Store := { PodManagers := [], Deployments := [], Pods := [] }

/-- The store of the example scenario: the resource, no workload, no pods. -/
def freshStore : Store := { PodManagers := [webManager], Deployments := [], Pods := [] }

/-- The workload of `web` as derived, but left at one replica. -/
def staleDeployment : Deployment :=
  { deploymentForPodManager exampleScheme webManager with
    Spec := { (deploymentForPodManager exampleScheme webManager).Spec with Replicas := some 1 } }

/-- The store with the resource and its workload at one replica. -/
def staleStore : Store :=
  { PodManagers := [webManager], Deployments := [staleDeployment], Pods := [] }

/-- A fault plan: every status Update runs into a conflict. -/
def conflictOnStatus : Call → Option StoreError := fun c =>
  if c.isStatusUpdate then some .conflict else none

/-- The reconciler over the in-memory store whose status Updates fail. -/
def flakyReconciler : PodManagerReconciler Store :=
  { Client := faultyClient conflictOnStatus, Scheme := exampleScheme }

/-- A concurrent edit of the spec: every PodManager is set to five replicas. -/
def bumpReplicas (s : Store) : Store :=
  { s with PodManagers := s.PodManagers.map (fun o => { o with Spec := { o.Spec with Replicas := 5 } }) }

/-- The resource `web` after that edit. -/
def bumpedManager : PodManager :=
  { webManager with Spec := { webManager.Spec with Replicas := 5 } }

/-- The reconciler over the in-memory store with that edit racing it. -/
def racedReconciler : PodManagerReconciler Store :=
  { Client := racingClient bumpReplicas, Scheme := exampleScheme }

/-- A scheme in which the PodManager kind is not registered. -/
def emptyScheme : Scheme := { ObjectKinds := [] }

/-- A pod of another workload in the same namespace. -/
def strayPod : Pod :=
  { ObjectMeta := { ObjectMeta.zero with Name := "other-0", Namespace := "default",
                                         Labels := [("app", "other")] }
    Spec := { Containers := [], RestartPolicy := "Always" } }

/-- The store with the resource, no workload yet, three pods carrying its label
and one pod that does not. -/
def threePodStore : Store :=
  { PodManagers := [webManager], Deployments := [],
    Pods := [webPod "web-0", strayPod, webPod "web-1", webPod "web-2"] }

/-- The store with a resource whose restart policy is empty, no workload, and two
pods carrying the workload's label. -/
def plainStore : Store :=
  { PodManagers := [plainManager], Deployments := [],
    Pods := [webPod "pod-0", webPod "pod-1"] }

/-! ## Theorems: the workload deriver -/

/-- The conversion is the usual wrap-around into the range of `int32`. -/
theorem int32OfInt_eq (n : Int) :
    int32OfInt n = (n + 2147483648) % 4294967296 - 2147483648 := by
  unfold int32OfInt
  dsimp only
  split <;> omega

/-- A successful `SetControllerReference` changes the owner references only. -/
theorem SetControllerReference_ok (owner : PodManager) (dep dep1 : Deployment)
    (scheme : Scheme) (h : SetControllerReference owner dep scheme = .ok dep1) :
    dep1.Spec = dep.Spec ∧ dep1.ObjectMeta.Name = dep.ObjectMeta.Name ∧
      dep1.ObjectMeta.Namespace = dep.ObjectMeta.Namespace ∧
      dep1.ObjectMeta.Labels = dep.ObjectMeta.Labels ∧
      dep1.ObjectMeta.UID = dep.ObjectMeta.UID ∧
      dep1.ObjectMeta.ResourceVersion = dep.ObjectMeta.ResourceVersion := by
  unfold SetControllerReference at h
  split at h
  · cases h
  · split at h
    · cases h
    · dsimp only at h
      split at h
      · cases h
      · cases h
        exact ⟨rfl, rfl, rfl, rfl, rfl, rfl⟩

/-- The spec of the derived workload. -/
theorem deploymentForPodManager_Spec (scheme : Scheme) (m : PodManager) :
    (deploymentForPodManager scheme m).Spec =
      { Replicas := some m.Spec.Replicas
        Selector := some { MatchLabels := [("app", m.Name)] }
        Template :=
          { ObjectMeta := { ObjectMeta.zero with Labels := [("app", m.Name)] }
            Spec :=
              { Containers :=
                  [{ Image := "nginx:latest", Name := "nginx",
                     Ports := [{ ContainerPort := 80, Name := "http" }] }]
                RestartPolicy :=
                  if m.Spec.RestartPolicy = "" then RestartPolicyAlways
                  else m.Spec.RestartPolicy } } } := by
  unfold deploymentForPodManager
  dsimp only
  by_cases hrp : m.Spec.RestartPolicy = ""
  · simp only [hrp, ne_eq, not_true_eq_false, if_false, if_true, Int32Ptr]
    split
    · next dep1 h => rw [(SetControllerReference_ok _ _ _ _ h).1]
    · rfl
  · simp only [hrp, ne_eq, not_false_eq_true, if_false, if_true, Int32Ptr]
    split
    · next dep1 h => rw [(SetControllerReference_ok _ _ _ _ h).1]
    · rfl

/-- The identity of the derived workload. -/
theorem deploymentForPodManager_key (scheme : Scheme) (m : PodManager) :
    (deploymentForPodManager scheme m).ObjectMeta.Name = m.Name ∧
      (deploymentForPodManager scheme m).ObjectMeta.Namespace = m.Namespace := by
  unfold deploymentForPodManager
  dsimp only
  generalize (if m.Spec.RestartPolicy ≠ "" then m.Spec.RestartPolicy
    else RestartPolicyAlways) = rp
  split
  · next dep1 h =>
    have h1 := SetControllerReference_ok _ _ _ _ h
    exact ⟨h1.2.1, h1.2.2.1⟩
  · exact ⟨rfl, rfl⟩

/-- C8 (counterexample): for the restart policy "Sometimes", which is neither
empty nor one of "Always", "OnFailure", "Never", the pod template of the derived
workload carries "Sometimes", not "Always". -/
theorem unrecognized_restartPolicy_passes_through :
    oddManager.Spec.RestartPolicy ≠ "" ∧
      oddManager.Spec.RestartPolicy ≠ "Always" ∧
      oddManager.Spec.RestartPolicy ≠ "OnFailure" ∧
      oddManager.Spec.RestartPolicy ≠ "Never" ∧
      (deploymentForPodManager exampleScheme oddManager).Spec.Template.Spec.RestartPolicy
        = "Sometimes" ∧
      (deploymentForPodManager exampleScheme oddManager).Spec.Template.Spec.RestartPolicy
        ≠ "Always" := by
  decide

/-- C8 (amended): the pod template restart policy of the derived workload is
"Always" when the PodManager's restartPolicy is the empty string, and is the
PodManager's restartPolicy itself for every non-empty string; so each of
"Always", "OnFailure" and "Never" is kept as it is. -/
theorem deploymentForPodManager_restartPolicy (scheme : Scheme) (m : PodManager) :
    (deploymentForPodManager scheme m).Spec.Template.Spec.RestartPolicy =
        (if m.Spec.RestartPolicy = "" then "Always" else m.Spec.RestartPolicy) ∧
      ∀ p : String, p ∈ ["Always", "OnFailure", "Never"] →
        ∀ m1 : PodManager, m1.Spec.RestartPolicy = p →
          (deploymentForPodManager scheme m1).Spec.Template.Spec.RestartPolicy = p := by
  refine ⟨?_, ?_⟩
  · rw [deploymentForPodManager_Spec]
    rfl
  · intro p hp m1 hm1
    rw [deploymentForPodManager_Spec]
    have hne : m1.Spec.RestartPolicy ≠ "" := by
      rw [hm1]
      simp only [List.mem_cons, List.mem_singleton, List.mem_nil_iff, or_false] at hp
      rcases hp with h | h | h <;> rw [h] <;> decide
    show (if m1.Spec.RestartPolicy = "" then RestartPolicyAlways
      else m1.Spec.RestartPolicy) = p
    rw [if_neg hne, hm1]

/-- The metadata of the derived workload, owner references apart. -/
theorem deploymentForPodManager_ObjectMeta (scheme : Scheme) (m : PodManager) :
    { (deploymentForPodManager scheme m).ObjectMeta with OwnerReferences := [] }
      = { ObjectMeta.zero with Name := m.Name, Namespace := m.Namespace } := by
  unfold deploymentForPodManager
  dsimp only
  generalize (if m.Spec.RestartPolicy ≠ "" then m.Spec.RestartPolicy
    else RestartPolicyAlways) = rp
  split
  · next dep1 h =>
    have h1 := SetControllerReference_ok _ _ _ _ h
    simp only [ObjectMeta.mk.injEq, h1.2.1, h1.2.2.1, h1.2.2.2.1, h1.2.2.2.2.1,
      h1.2.2.2.2.2]
    simp [ObjectMeta.zero]
  · rfl

/-- The owner references of the derived workload: the controller reference to
the PodManager under the kind the scheme gives, or none when the scheme gives
no kind. -/
theorem deploymentForPodManager_OwnerReferences (scheme : Scheme) (m : PodManager) :
    (deploymentForPodManager scheme m).ObjectMeta.OwnerReferences =
      match GVKForObject m scheme with
      | .ok gvk =>
        [{ APIVersion := gvk.APIVersion, Kind := gvk.Kind, Name := m.Name,
           UID := m.ObjectMeta.UID, Controller := some true, BlockOwnerDeletion := some true }]
      | .error _ => [] := by
  unfold deploymentForPodManager
  dsimp only
  generalize (if m.Spec.RestartPolicy ≠ "" then m.Spec.RestartPolicy
    else RestartPolicyAlways) = rp
  unfold SetControllerReference
  have hv : validateOwner m
      { ObjectMeta := { ObjectMeta.zero with Name := m.Name, Namespace := m.Namespace }
        Spec :=
          { Replicas := Int32Ptr m.Spec.Replicas
            Selector := some { MatchLabels := [("app", m.Name)] }
            Template :=
              { ObjectMeta := { ObjectMeta.zero with Labels := [("app", m.Name)] }
                Spec :=
                  { Containers :=
                      [{ Image := "nginx:latest", Name := "nginx",
                         Ports := [{ ContainerPort := 80, Name := "http" }] }]
                    RestartPolicy := rp } } } } = .ok () := by
    unfold validateOwner
    by_cases hns : m.Namespace = "" <;> simp [hns]
  rw [hv]
  dsimp only
  rcases hg : GVKForObject m scheme with e | gvk
  · rfl
  · simp [ObjectMeta.zero, upsertOwnerRef]

/-- C9 (counterexample): the same PodManager gives two different workloads under
two schemes, one with the PodManager kind registered and one without; they
differ in the owner references. -/
theorem deploymentForPodManager_reads_scheme :
    deploymentForPodManager exampleScheme webManager
        ≠ deploymentForPodManager emptyScheme webManager ∧
      (deploymentForPodManager exampleScheme webManager).ObjectMeta.OwnerReferences
        = [{ APIVersion := "example.example.com/v1", Kind := "PodManager", Name := "web",
             UID := "uid-web", Controller := some true, BlockOwnerDeletion := some true }] ∧
      (deploymentForPodManager emptyScheme webManager).ObjectMeta.OwnerReferences = [] := by
  decide

/-- C9 (amended): the derived workload has the PodManager's name and namespace,
its replica count, selector match-labels and pod-template labels both exactly
`app = name`, and exactly one container, image "nginx:latest", with exactly one
port, 80. Owner references apart, the whole result is given by the PodManager
alone and is the same under every scheme; the owner references are given by the
PodManager and the reconciler's scheme. -/
theorem deploymentForPodManager_shape (scheme : Scheme) (m : PodManager) :
    (deploymentForPodManager scheme m).Name = m.Name ∧
      (deploymentForPodManager scheme m).Namespace = m.Namespace ∧
      (deploymentForPodManager scheme m).Spec.Replicas = some m.Spec.Replicas ∧
      (deploymentForPodManager scheme m).Spec.Selector
        = some { MatchLabels := [("app", m.Name)] } ∧
      (deploymentForPodManager scheme m).Spec.Template.ObjectMeta.Labels
        = [("app", m.Name)] ∧
      (deploymentForPodManager scheme m).Spec.Template.Spec.Containers
        = [{ Name := "nginx", Image := "nginx:latest",
             Ports := [{ Name := "http", ContainerPort := 80 }] }] ∧
      ({ deploymentForPodManager scheme m with
          ObjectMeta := { (deploymentForPodManager scheme m).ObjectMeta with
            OwnerReferences := [] } } : Deployment)
        = { ObjectMeta := { ObjectMeta.zero with Name := m.Name, Namespace := m.Namespace }
            Spec :=
              { Replicas := some m.Spec.Replicas
                Selector := some { MatchLabels := [("app", m.Name)] }
                Template :=
                  { ObjectMeta := { ObjectMeta.zero with Labels := [("app", m.Name)] }
                    Spec :=
                      { Containers :=
                          [{ Image := "nginx:latest", Name := "nginx",
                             Ports := [{ ContainerPort := 80, Name := "http" }] }]
                        RestartPolicy :=
                          if m.Spec.RestartPolicy = "" then RestartPolicyAlways
                          else m.Spec.RestartPolicy } } } } ∧
      (∀ scheme1 : Scheme,
        ({ deploymentForPodManager scheme1 m with
            ObjectMeta := { (deploymentForPodManager scheme1 m).ObjectMeta with
              OwnerReferences := [] } } : Deployment)
          = { deploymentForPodManager scheme m with
              ObjectMeta := { (deploymentForPodManager scheme m).ObjectMeta with
                OwnerReferences := [] } }) ∧
      (deploymentForPodManager scheme m).ObjectMeta.OwnerReferences =
        (match GVKForObject m scheme with
         | .ok gvk =>
           [{ APIVersion := gvk.APIVersion, Kind := gvk.Kind, Name := m.Name,
              UID := m.ObjectMeta.UID, Controller := some true,
              BlockOwnerDeletion := some true }]
         | .error _ => []) := by
  have hk := deploymentForPodManager_key scheme m
  have herase : ∀ sch : Scheme,
      ({ deploymentForPodManager sch m with
          ObjectMeta := { (deploymentForPodManager sch m).ObjectMeta with
            OwnerReferences := [] } } : Deployment)
        = { ObjectMeta := { ObjectMeta.zero with Name := m.Name, Namespace := m.Namespace }
            Spec :=
              { Replicas := some m.Spec.Replicas
                Selector := some { MatchLabels := [("app", m.Name)] }
                Template :=
                  { ObjectMeta := { ObjectMeta.zero with Labels := [("app", m.Name)] }
                    Spec :=
                      { Containers :=
                          [{ Image := "nginx:latest", Name := "nginx",
                             Ports := [{ ContainerPort := 80, Name := "http" }] }]
                        RestartPolicy :=
                          if m.Spec.RestartPolicy = "" then RestartPolicyAlways
                          else m.Spec.RestartPolicy } } } } := by
    intro sch
    rw [Deployment.mk.injEq]
    exact ⟨deploymentForPodManager_ObjectMeta sch m, deploymentForPodManager_Spec sch m⟩
  refine ⟨hk.1, hk.2, ?_, ?_, ?_, ?_, herase scheme, ?_,
    deploymentForPodManager_OwnerReferences scheme m⟩
  · rw [deploymentForPodManager_Spec]
  · rw [deploymentForPodManager_Spec]
  · rw [deploymentForPodManager_Spec]
  · rw [deploymentForPodManager_Spec]
  · intro scheme1
    rw [herase scheme1, herase scheme]

/-! ## Theorems: every run follows a path -/

/-- The status part appends a `StatusPath` to the trace. -/
theorem reconcileStatus_path {σ : Type} (r : PodManagerReconciler σ) (req : Request)
    (pm : PodManager) (tr : List Event) (s : σ) :
    ∃ tail, (reconcileStatus r req pm tr s).trace = tr ++ tail ∧
      StatusPath req pm tail (reconcileStatus r req pm tr s).outcome := by
  unfold reconcileStatus
  by_cases hrp : pm.Spec.RestartPolicy = ""
  · rw [if_neg (by simpa using hrp)]
    exact ⟨[], by simp, .skipped hrp⟩
  · rw [if_pos hrp]
    rcases hL : r.Client.List pm.Namespace [("app", pm.Name)] s with ⟨_ | pods, s1⟩
    · exact ⟨_, rfl, .listFailed hrp _⟩
    · dsimp only
      rcases hG : r.Client.GetPodManager req.NamespacedName s1 with ⟨_ | latest, s2⟩
      · exact ⟨_, by simp [listCall], .refetchFailed hrp pods _⟩
      · dsimp only
        rcases hU : r.Client.StatusUpdate
          { latest with Status := { AvailableReplicas := int32OfInt (pods.length : Int),
                                    Status := "Running" } } s2 with ⟨_ | stored, s3⟩
        · exact ⟨_, by simp [listCall, statusWritten], .updateFailed hrp pods latest _⟩
        · exact ⟨_, by simp [listCall, statusWritten], .updated hrp pods latest stored⟩

/-- The scaling part appends a `ScalePath` to the trace. -/
theorem reconcileScale_path {σ : Type} (r : PodManagerReconciler σ) (req : Request)
    (pm : PodManager) (d : Deployment) (tr : List Event) (s : σ) :
    ∃ tail, (reconcileScale r req pm d tr s).trace = tr ++ tail ∧
      ScalePath req pm d tail (reconcileScale r req pm d tr s).outcome := by
  unfold reconcileScale
  rcases hR : d.Spec.Replicas with _ | M
  · exact ⟨[], by simp, .nilReplicas hR⟩
  · dsimp only
    by_cases hne : M = pm.Spec.Replicas
    · rw [if_neg (by simpa using hne)]
      obtain ⟨tail, h1, h2⟩ := reconcileStatus_path r req pm tr s
      exact ⟨tail, h1, .unchanged (by rw [hR, hne]) tail _ h2⟩
    · rw [if_pos hne]
      rcases hU : r.Client.Update
        { d with Spec := { d.Spec with Replicas := Int32Ptr pm.Spec.Replicas } } s
        with ⟨_ | stored, s1⟩
      · exact ⟨_, rfl, .updateFailed M hR hne _⟩
      · dsimp only
        obtain ⟨tail, h1, h2⟩ := reconcileStatus_path r req pm
          (tr ++ [⟨.update { d with Spec := { d.Spec with
            Replicas := Int32Ptr pm.Spec.Replicas } }, .deployment stored⟩]) s1
        refine ⟨_ :: tail, ?_, .updated M hR hne stored tail _ h2⟩
        rw [h1]
        simp [scaled, Int32Ptr]

/-- Every run of `Reconcile` follows a `ReconcilePath`. -/
theorem Reconcile_path {σ : Type} (r : PodManagerReconciler σ) (req : Request) (s : σ) :
    ReconcilePath r.Scheme req (Reconcile r req s).trace (Reconcile r req s).outcome := by
  unfold Reconcile
  rcases hG : r.Client.GetPodManager req.NamespacedName s with ⟨err | pm, s1⟩
  · dsimp only
    by_cases hnf : IsNotFound err = true
    · rw [if_pos hnf]
      exact .gone err hnf
    · rw [if_neg hnf]
      exact .getFailed err (by simpa using hnf)
  · dsimp only
    rcases hD : r.Client.GetDeployment { Name := pm.Name, Namespace := pm.Namespace } s1
      with ⟨err | d, s2⟩
    · dsimp only
      by_cases hnf : IsNotFound err = true
      · rw [if_pos hnf]
        rcases hC : r.Client.Create (deploymentForPodManager r.Scheme pm) s2
          with ⟨err1 | stored, s3⟩
        · exact .createFailed pm err hnf err1
        · dsimp only
          obtain ⟨tail, h1, h2⟩ := reconcileScale_path r req pm stored
            ([⟨.getPodManager req.NamespacedName, .podManager pm⟩] ++
              [⟨.getDeployment { Name := pm.Name, Namespace := pm.Namespace }, .failed err⟩] ++
              [⟨.create (deploymentForPodManager r.Scheme pm), .deployment stored⟩]) s3
          rw [h1]
          exact .created pm err hnf stored tail _ h2
      · rw [if_neg hnf]
        exact .deploymentGetFailed pm err (by simpa using hnf)
    · dsimp only
      obtain ⟨tail, h1, h2⟩ := reconcileScale_path r req pm d
        ([⟨.getPodManager req.NamespacedName, .podManager pm⟩] ++
          [⟨.getDeployment { Name := pm.Name, Namespace := pm.Namespace }, .deployment d⟩]) s2
      rw [h1]
      exact .found pm d tail _ h2

/-- A failed call on a `StatusPath` is its last call, and the path ends in that
call's error, with a requeue exactly for the status Update. -/
theorem StatusPath_stops {req : Request} {pm : PodManager} {tail : List Event}
    {out : Outcome} (hp : StatusPath req pm tail out) (j : Nat) (call : Call)
    (err : StoreError) (h : tail[j]? = some ⟨call, .failed err⟩) :
    j + 1 = tail.length ∧
      out = .returned { Requeue := call.isStatusUpdate, RequeueAfter := 0 } (some err) := by
  cases hp <;> rcases j with _ | _ | _ | j <;> simp at h <;>
    (obtain ⟨rfl, rfl⟩ := h; simp [Result.zero, Call.isStatusUpdate, listCall])

/-- A failed call on a `ScalePath` is its last call, and the path ends in that
call's error, with a requeue exactly for the status Update. -/
theorem ScalePath_stops {req : Request} {pm : PodManager} {d : Deployment}
    {tail : List Event} {out : Outcome} (hp : ScalePath req pm d tail out) (j : Nat)
    (call : Call) (err : StoreError) (h : tail[j]? = some ⟨call, .failed err⟩) :
    j + 1 = tail.length ∧
      out = .returned { Requeue := call.isStatusUpdate, RequeueAfter := 0 } (some err) := by
  cases hp with
  | nilReplicas hr => simp at h
  | updateFailed M hr hne e =>
    rcases j with _ | j <;> simp at h
    obtain ⟨rfl, rfl⟩ := h
    simp [Result.zero, Call.isStatusUpdate]
  | updated M hr hne stored tl o ht =>
    rcases j with _ | j
    · simp at h
    · have h1 : tl[j]? = some ⟨call, .failed err⟩ := by simpa using h
      obtain ⟨h2, h3⟩ := StatusPath_stops ht j call err h1
      exact ⟨by simp [h2], h3⟩
  | unchanged hr tl o ht => exact StatusPath_stops ht j call err h

/-- Past the first read, a path is a stretch of Deployment calls followed either
by a `StatusPath` or, when the invocation stopped early, by nothing. -/
theorem ScalePath_split {req : Request} {pm : PodManager} {d : Deployment}
    {t : List Event} {out : Outcome} (hp : ScalePath req pm d t out) :
    ∃ mid tail, t = mid ++ tail ∧ (∀ e ∈ mid, e.call.isWorkloadCall = true) ∧
      (StatusPath req pm tail out ∨ (tail = [] ∧ out ≠ .returned Result.zero none)) := by
  cases hp with
  | nilReplicas hr => exact ⟨[], [], rfl, by simp, .inr ⟨rfl, by simp⟩⟩
  | updateFailed M hr hne e =>
    exact ⟨_, [], (List.append_nil _).symm, by simp [Call.isWorkloadCall], .inr ⟨rfl, by simp⟩⟩
  | updated M hr hne stored tl o ht =>
    exact ⟨[⟨.update (scaled d pm), .deployment stored⟩], tl, rfl,
      by simp [Call.isWorkloadCall], .inl ht⟩
  | unchanged hr tl o ht => exact ⟨[], _, rfl, by simp, .inl ht⟩

/-- A run whose first read found the PodManager `pm`: that read, then Deployment
calls, then either a `StatusPath` or, when the invocation stopped early, nothing. -/
theorem ReconcilePath_split {scheme : Scheme} {req : Request} {t : List Event}
    {out : Outcome} (hp : ReconcilePath scheme req t out) (c0 : Call) (pm : PodManager)
    (h0 : t.head? = some ⟨c0, .podManager pm⟩) :
    ∃ mid tail, t = ⟨.getPodManager req.NamespacedName, .podManager pm⟩ :: (mid ++ tail) ∧
      (∀ e ∈ mid, e.call.isWorkloadCall = true) ∧
      (StatusPath req pm tail out ∨ (tail = [] ∧ out ≠ .returned Result.zero none)) := by
  cases hp with
  | gone e hnf => simp at h0
  | getFailed e hnf => simp at h0
  | deploymentGetFailed pm1 e hnf =>
    simp at h0
    obtain ⟨-, rfl⟩ := h0
    exact ⟨[⟨.getDeployment (deploymentKey pm1), .failed e⟩], [], by simp,
      by simp [Call.isWorkloadCall], .inr ⟨rfl, by simp⟩⟩
  | createFailed pm1 e hnf e1 =>
    simp at h0
    obtain ⟨-, rfl⟩ := h0
    exact ⟨[⟨.getDeployment (deploymentKey pm1), .failed e⟩,
      ⟨.create (deploymentForPodManager scheme pm1), .failed e1⟩], [], by simp,
      by simp [Call.isWorkloadCall], .inr ⟨rfl, by simp⟩⟩
  | created pm1 e hnf stored tl o ht =>
    simp at h0
    obtain ⟨-, rfl⟩ := h0
    obtain ⟨mid, tail, rfl, hmid, htail⟩ := ScalePath_split ht
    refine ⟨⟨.getDeployment (deploymentKey pm1), .failed e⟩ ::
      ⟨.create (deploymentForPodManager scheme pm1), .deployment stored⟩ :: mid, tail,
      by simp, ?_, htail⟩
    intro ev hev
    simp only [List.mem_cons] at hev
    rcases hev with rfl | rfl | hev
    · rfl
    · rfl
    · exact hmid ev hev
  | found pm1 d tl o ht =>
    simp at h0
    obtain ⟨-, rfl⟩ := h0
    obtain ⟨mid, tail, rfl, hmid, htail⟩ := ScalePath_split ht
    refine ⟨⟨.getDeployment (deploymentKey pm1), .deployment d⟩ :: mid, tail, by simp, ?_, htail⟩
    intro ev hev
    simp only [List.mem_cons] at hev
    rcases hev with rfl | hev
    · rfl
    · exact hmid ev hev

/-! ## Theorems: the reconciler over an arbitrary client -/

/-- C1: when the first Get finds no PodManager under the request's identity
(it returns NotFound), Reconcile returns the empty result with a nil error, and
that Get is its only store call: no Create, no Update, no status Update. -/
theorem Reconcile_absent_is_noop {σ : Type} (r : PodManagerReconciler σ) (req : Request)
    (s s1 : σ) (err : StoreError)
    (hget : r.Client.GetPodManager req.NamespacedName s = (.error err, s1))
    (hnf : IsNotFound err = true) :
    (Reconcile r req s).outcome = .returned { Requeue := false, RequeueAfter := 0 } none ∧
      (Reconcile r req s).trace = [⟨.getPodManager req.NamespacedName, .failed err⟩] ∧
      (Reconcile r req s).trace.any (fun e => e.call.isMutating) = false ∧
      (Reconcile r req s).store = s1 := by
  unfold Reconcile
  rw [hget]
  simp [hnf, Result.zero, Call.isMutating]

/-- C1 at the empty in-memory store and the request for `default/web`. -/
theorem Reconcile_absent_is_noop_witness :
    (Reconcile (memReconciler exampleScheme) webRequest emptyStore).outcome
        = .returned { Requeue := false, RequeueAfter := 0 } none ∧
      (Reconcile (memReconciler exampleScheme) webRequest emptyStore).trace
        = [⟨.getPodManager webRequest.NamespacedName, .failed .notFound⟩] ∧
      (Reconcile (memReconciler exampleScheme) webRequest emptyStore).trace.any
        (fun e => e.call.isMutating) = false ∧
      (Reconcile (memReconciler exampleScheme) webRequest emptyStore).store = emptyStore :=
  Reconcile_absent_is_noop (memReconciler exampleScheme) webRequest emptyStore emptyStore
    .notFound rfl rfl

/-- C7: a failed store call, other than a NotFound on the initial PodManager Get
(the call at position 0) or a NotFound on the Deployment Get, is the last call
Reconcile makes, and Reconcile returns that call's error; the requeue flag of the
result is true exactly when the failed call is the status Update. -/
theorem Reconcile_failure_short_circuits {σ : Type} (r : PodManagerReconciler σ)
    (req : Request) (s : σ) (i : Nat) (call : Call) (err : StoreError)
    (h : (Reconcile r req s).trace[i]? = some ⟨call, .failed err⟩)
    (hInit : ¬ (i = 0 ∧ IsNotFound err = true))
    (hDep : ∀ key, call = .getDeployment key → IsNotFound err = false) :
    i + 1 = (Reconcile r req s).trace.length ∧
      (Reconcile r req s).outcome
        = .returned { Requeue := call.isStatusUpdate, RequeueAfter := 0 } (some err) := by
  have hp := Reconcile_path r req s
  generalize (Reconcile r req s).trace = t at h hp ⊢
  generalize (Reconcile r req s).outcome = o at hp ⊢
  cases hp with
  | gone e hnf =>
    rcases i with _ | i <;> simp at h
    obtain ⟨rfl, rfl⟩ := h
    exact absurd ⟨rfl, hnf⟩ hInit
  | getFailed e hnf =>
    rcases i with _ | i <;> simp at h
    obtain ⟨rfl, rfl⟩ := h
    simp [Result.zero, Call.isStatusUpdate]
  | deploymentGetFailed pm e hnf =>
    rcases i with _ | _ | i <;> simp at h
    obtain ⟨rfl, rfl⟩ := h
    simp [Result.zero, Call.isStatusUpdate]
  | createFailed pm e hnf e1 =>
    rcases i with _ | _ | _ | i <;> simp at h
    · obtain ⟨rfl, rfl⟩ := h
      rw [hDep _ rfl] at hnf
      cases hnf
    · obtain ⟨rfl, rfl⟩ := h
      simp [Result.zero, Call.isStatusUpdate]
  | created pm e hnf stored tail out ht =>
    rcases i with _ | _ | _ | i
    · simp at h
    · simp at h
      obtain ⟨rfl, rfl⟩ := h
      rw [hDep _ rfl] at hnf
      cases hnf
    · simp at h
    · have h1 : tail[i]? = some ⟨call, .failed err⟩ := by simpa using h
      obtain ⟨h2, h3⟩ := ScalePath_stops ht i call err h1
      exact ⟨by simp [h2], h3⟩
  | found pm d tail out ht =>
    rcases i with _ | _ | i
    · simp at h
    · simp at h
    · have h1 : tail[i]? = some ⟨call, .failed err⟩ := by simpa using h
      obtain ⟨h2, h3⟩ := ScalePath_stops ht i call err h1
      exact ⟨by simp [h2], h3⟩

/-- C7 at a run whose status Update fails with a conflict: it is the sixth and
last call, and Reconcile returns the conflict with requeue set. -/
theorem Reconcile_failure_short_circuits_witness :
    (Reconcile flakyReconciler webRequest freshStore).trace[5]?
        = some ⟨.statusUpdate (statusWritten webManager []), .failed .conflict⟩ ∧
      5 + 1 = (Reconcile flakyReconciler webRequest freshStore).trace.length ∧
      (Reconcile flakyReconciler webRequest freshStore).outcome
        = .returned { Requeue := true, RequeueAfter := 0 } (some .conflict) :=
  ⟨by decide,
   (Reconcile_failure_short_circuits flakyReconciler webRequest freshStore 5
      (.statusUpdate (statusWritten webManager [])) .conflict (by decide) (by decide)
      (fun _ hk => by cases hk)).1,
   (Reconcile_failure_short_circuits flakyReconciler webRequest freshStore 5
      (.statusUpdate (statusWritten webManager [])) .conflict (by decide) (by decide)
      (fun _ hk => by cases hk)).2⟩

/-- A `StatusPath` holds no call on the Deployment. -/
theorem StatusPath_no_workloadCall {req : Request} {pm : PodManager} {tail : List Event}
    {out : Outcome} (hp : StatusPath req pm tail out) :
    ∀ e ∈ tail, e.call.isWorkloadCall = false ∧ e.call.isDeploymentWrite = false := by
  cases hp <;> simp [listCall, Call.isWorkloadCall, Call.isDeploymentWrite]

/-- C3: when the Deployment read has replica count M and the PodManager read has
replicas N with M ≠ N, the third store call of Reconcile is an Update of a
Deployment whose replica count is N and whose metadata (name, namespace, labels),
selector and pod template are those of the Deployment read; it is the only write
of a Deployment in the run. -/
theorem Reconcile_rescales {σ : Type} (r : PodManagerReconciler σ) (req : Request)
    (s s1 s2 : σ) (pm : PodManager) (d : Deployment) (M : Int)
    (hget : r.Client.GetPodManager req.NamespacedName s = (.ok pm, s1))
    (hdep : r.Client.GetDeployment { Name := pm.Name, Namespace := pm.Namespace } s1
      = (.ok d, s2))
    (hM : d.Spec.Replicas = some M) (hne : M ≠ pm.Spec.Replicas) :
    ∃ (obj : Deployment) (reply : Reply),
      (Reconcile r req s).trace[2]? = some ⟨.update obj, reply⟩ ∧
      (Reconcile r req s).trace.filter (fun e => e.call.isDeploymentWrite)
        = [⟨.update obj, reply⟩] ∧
      obj.Spec.Replicas = some pm.Spec.Replicas ∧
      obj.ObjectMeta = d.ObjectMeta ∧
      obj.Spec.Selector = d.Spec.Selector ∧
      obj.Spec.Template = d.Spec.Template := by
  unfold Reconcile
  rw [hget]
  dsimp only
  rw [hdep]
  dsimp only
  unfold reconcileScale
  rw [hM]
  dsimp only
  rw [if_pos hne]
  rcases hU : r.Client.Update
    { d with Spec := { d.Spec with Replicas := Int32Ptr pm.Spec.Replicas } } s2
    with ⟨e | stored, s3⟩
  · exact ⟨scaled d pm, .failed e, by simp [scaled, Int32Ptr],
      by simp [Call.isDeploymentWrite, scaled, Int32Ptr], rfl, rfl, rfl, rfl⟩
  · dsimp only
    obtain ⟨tail, h1, h2⟩ := reconcileStatus_path r req pm
      ([⟨.getPodManager req.NamespacedName, .podManager pm⟩] ++
        [⟨.getDeployment { Name := pm.Name, Namespace := pm.Namespace }, .deployment d⟩] ++
        [⟨.update { d with Spec := { d.Spec with
          Replicas := Int32Ptr pm.Spec.Replicas } }, .deployment stored⟩]) s3
    rw [h1]
    refine ⟨scaled d pm, .deployment stored, by simp [scaled, Int32Ptr], ?_, rfl, rfl, rfl, rfl⟩
    have h3 : tail.filter (fun e => e.call.isDeploymentWrite) = [] := by
      rw [List.filter_eq_nil_iff]
      intro e he
      simp [(StatusPath_no_workloadCall h2 e he).2]
    rw [List.filter_append, h3, List.append_nil]
    simp [Call.isDeploymentWrite, scaled, Int32Ptr]

/-- C3 at the store whose workload `web` has one replica while the resource asks
for three. -/
theorem Reconcile_rescales_witness :
    ∃ (obj : Deployment) (reply : Reply),
      (Reconcile (memReconciler exampleScheme) webRequest staleStore).trace[2]?
        = some ⟨.update obj, reply⟩ ∧
      (Reconcile (memReconciler exampleScheme) webRequest staleStore).trace.filter
        (fun e => e.call.isDeploymentWrite) = [⟨.update obj, reply⟩] ∧
      obj.Spec.Replicas = some webManager.Spec.Replicas ∧
      obj.ObjectMeta = staleDeployment.ObjectMeta ∧
      obj.Spec.Selector = staleDeployment.Spec.Selector ∧
      obj.Spec.Template = staleDeployment.Spec.Template :=
  Reconcile_rescales (memReconciler exampleScheme) webRequest staleStore staleStore
    staleStore webManager staleDeployment 1 rfl rfl rfl (by decide)

/-- C6: with P1 the PodManager returned by the first Get, every status Update
Reconcile issues comes right after a pod listing and a second Get of the
PodManager (the re-fetch), and the object it passes is the re-fetched P2 with
only the status fields set: type, metadata and spec are P2's, so when P1 and P2
differ in spec the spec written is not P1's. -/
theorem statusUpdate_passes_refetched {σ : Type} (r : PodManagerReconciler σ)
    (req : Request) (s : σ) (c0 : Call) (P1 obj : PodManager) (reply : Reply)
    (h0 : (Reconcile r req s).trace.head? = some ⟨c0, .podManager P1⟩)
    (hu : ⟨.statusUpdate obj, reply⟩ ∈ (Reconcile r req s).trace) :
    ∃ (mid : List Event) (P2 : PodManager) (pods : List Pod),
      (Reconcile r req s).trace
        = ⟨.getPodManager req.NamespacedName, .podManager P1⟩ ::
            (mid ++ [⟨.list P1.Namespace [("app", P1.Name)], .podList pods⟩,
                     ⟨.getPodManager req.NamespacedName, .podManager P2⟩,
                     ⟨.statusUpdate obj, reply⟩]) ∧
      obj.TypeMeta = P2.TypeMeta ∧ obj.ObjectMeta = P2.ObjectMeta ∧ obj.Spec = P2.Spec ∧
      obj.Status = { AvailableReplicas := int32OfInt (pods.length : Int),
                     Status := "Running" } ∧
      (P1.Spec ≠ P2.Spec → obj.Spec ≠ P1.Spec) := by
  obtain ⟨mid, tail, ht, hmid, htail⟩ := ReconcilePath_split (Reconcile_path r req s) c0 P1 h0
  rw [ht] at hu ⊢
  generalize (Reconcile r req s).outcome = o at htail
  simp only [List.mem_cons, List.mem_append, Event.mk.injEq, reduceCtorEq, false_and,
    false_or] at hu
  rcases hu with hu | hu
  · have := hmid _ hu
    simp [Call.isWorkloadCall] at this
  · rcases htail with hsp | ⟨rfl, -⟩
    · cases hsp with
      | skipped h => simp at hu
      | listFailed h e => simp [listCall] at hu
      | refetchFailed h pods e => simp [listCall] at hu
      | updateFailed h pods latest e =>
        simp [listCall] at hu
        obtain ⟨rfl, rfl⟩ := hu
        refine ⟨mid, latest, pods, ?_, ?_, ?_, ?_, ?_, ?_⟩
        · simp [listCall]
        · simp [statusWritten]
        · simp [statusWritten]
        · simp [statusWritten]
        · simp [statusWritten]
        · intro hne heq
          exact hne (by simpa [statusWritten] using heq.symm)
      | updated h pods latest stored =>
        simp [listCall] at hu
        obtain ⟨rfl, rfl⟩ := hu
        refine ⟨mid, latest, pods, ?_, ?_, ?_, ?_, ?_, ?_⟩
        · simp [listCall]
        · simp [statusWritten]
        · simp [statusWritten]
        · simp [statusWritten]
        · simp [statusWritten]
        · intro hne heq
          exact hne (by simpa [statusWritten] using heq.symm)
    · simp at hu

/-- C6 at a run raced by an edit of the spec: the first Get returns three
replicas, the re-fetch five, and the object of the status Update carries five. -/
theorem statusUpdate_passes_refetched_witness :
    webManager.Spec ≠ bumpedManager.Spec ∧
    ∃ (mid : List Event) (P2 : PodManager) (pods : List Pod),
      (Reconcile racedReconciler webRequest freshStore).trace
        = ⟨.getPodManager webRequest.NamespacedName, .podManager webManager⟩ ::
            (mid ++ [⟨.list webManager.Namespace [("app", webManager.Name)], .podList pods⟩,
                     ⟨.getPodManager webRequest.NamespacedName, .podManager P2⟩,
                     ⟨.statusUpdate (statusWritten bumpedManager []),
                      .podManager (statusWritten bumpedManager [])⟩]) ∧
      (statusWritten bumpedManager []).TypeMeta = P2.TypeMeta ∧
      (statusWritten bumpedManager []).ObjectMeta
        = P2.ObjectMeta ∧
      (statusWritten bumpedManager []).Spec = P2.Spec ∧
      (statusWritten bumpedManager []).Status
        = { AvailableReplicas := int32OfInt (pods.length : Int), Status := "Running" } ∧
      (webManager.Spec ≠ P2.Spec →
        (statusWritten bumpedManager []).Spec
          ≠ webManager.Spec) :=
  ⟨by decide,
   statusUpdate_passes_refetched racedReconciler webRequest freshStore
     (.getPodManager webRequest.NamespacedName) webManager
     (statusWritten bumpedManager [])
     (.podManager (statusWritten bumpedManager []))
     (by decide) (by decide)⟩

/-- C5: when the first Get returns a PodManager with a non-empty restartPolicy
and Reconcile succeeds, its last three calls are the listing of the pods in the
PodManager's namespace with label `app` = its name, the re-fetch, and a status
Update whose object has status "Running" and availableReplicas equal to the
number K of listed pods, for every K the int32 field holds (K ≤ 2147483647; the
value written is `int32(K)` throughout). -/
theorem status_reports_listed_pods {σ : Type} (r : PodManagerReconciler σ) (req : Request)
    (s : σ) (c0 : Call) (pm : PodManager)
    (h0 : (Reconcile r req s).trace.head? = some ⟨c0, .podManager pm⟩)
    (hrp : pm.Spec.RestartPolicy ≠ "")
    (hok : (Reconcile r req s).outcome = .returned Result.zero none) :
    ∃ (pre : List Event) (pods : List Pod) (latest stored obj : PodManager),
      (Reconcile r req s).trace
        = pre ++ [⟨.list pm.Namespace [("app", pm.Name)], .podList pods⟩,
                  ⟨.getPodManager req.NamespacedName, .podManager latest⟩,
                  ⟨.statusUpdate obj, .podManager stored⟩] ∧
      obj.Status.Status = "Running" ∧
      obj.Status.AvailableReplicas = int32OfInt (pods.length : Int) ∧
      (pods.length ≤ 2147483647 → obj.Status.AvailableReplicas = (pods.length : Int)) := by
  obtain ⟨mid, tail, ht, hmid, htail⟩ := ReconcilePath_split (Reconcile_path r req s) c0 pm h0
  rw [hok] at htail
  rcases htail with hsp | ⟨-, hbad⟩
  · cases hsp with
    | skipped h => exact absurd h hrp
    | updated h pods latest stored =>
      refine ⟨⟨.getPodManager req.NamespacedName, .podManager pm⟩ :: mid, pods, latest,
        stored, statusWritten latest pods, by rw [ht]; simp [listCall],
        by simp [statusWritten], by simp [statusWritten], ?_⟩
      intro hK
      simp only [statusWritten]
      rw [int32OfInt_eq]
      omega
  · exact absurd rfl hbad

/-- C5 at a store with three pods carrying the label and one that does not: the
listing has three items and the status written is `3`, "Running". -/
theorem status_reports_listed_pods_witness :
    (threePodStore.listPods webManager.Namespace [("app", webManager.Name)]).length = 3 ∧
    (Reconcile (memReconciler exampleScheme) webRequest threePodStore).trace.getLast?
      = some ⟨.statusUpdate { webManager with
                Status := { AvailableReplicas := 3, Status := "Running" } },
              .podManager { webManager with
                Status := { AvailableReplicas := 3, Status := "Running" } }⟩ ∧
    ∃ (pre : List Event) (pods : List Pod) (latest stored obj : PodManager),
      (Reconcile (memReconciler exampleScheme) webRequest threePodStore).trace
        = pre ++ [⟨.list webManager.Namespace [("app", webManager.Name)], .podList pods⟩,
                  ⟨.getPodManager webRequest.NamespacedName, .podManager latest⟩,
                  ⟨.statusUpdate obj, .podManager stored⟩] ∧
      obj.Status.Status = "Running" ∧
      obj.Status.AvailableReplicas = int32OfInt (pods.length : Int) ∧
      (pods.length ≤ 2147483647 → obj.Status.AvailableReplicas = (pods.length : Int)) :=
  ⟨by decide, by decide,
   status_reports_listed_pods (memReconciler exampleScheme) webRequest threePodStore
     (.getPodManager webRequest.NamespacedName) webManager (by decide) (by decide)
     (by decide)⟩

/-! ## Theorems: the steps of a run, by what the client answers -/

/-- The run when the PodManager is found and its Deployment is found. -/
theorem Reconcile_found {σ : Type} (r : PodManagerReconciler σ) (req : Request)
    (s s1 s2 : σ) (pm : PodManager) (d : Deployment)
    (hG : r.Client.GetPodManager req.NamespacedName s = (.ok pm, s1))
    (hD : r.Client.GetDeployment (deploymentKey pm) s1 = (.ok d, s2)) :
    Reconcile r req s = reconcileScale r req pm d
      [⟨.getPodManager req.NamespacedName, .podManager pm⟩,
       ⟨.getDeployment (deploymentKey pm), .deployment d⟩] s2 := by
  unfold deploymentKey at hD
  unfold Reconcile
  rw [hG]
  dsimp only
  rw [hD]
  rfl

/-- The run when the PodManager is found, its Deployment is not, and the Create
succeeds. -/
theorem Reconcile_created {σ : Type} (r : PodManagerReconciler σ) (req : Request)
    (s s1 s2 s3 : σ) (pm : PodManager) (err : StoreError) (stored : Deployment)
    (hG : r.Client.GetPodManager req.NamespacedName s = (.ok pm, s1))
    (hD : r.Client.GetDeployment (deploymentKey pm) s1 = (.error err, s2))
    (hnf : IsNotFound err = true)
    (hC : r.Client.Create (deploymentForPodManager r.Scheme pm) s2 = (.ok stored, s3)) :
    Reconcile r req s = reconcileScale r req pm stored
      [⟨.getPodManager req.NamespacedName, .podManager pm⟩,
       ⟨.getDeployment (deploymentKey pm), .failed err⟩,
       ⟨.create (deploymentForPodManager r.Scheme pm), .deployment stored⟩] s3 := by
  unfold deploymentKey at hD
  unfold Reconcile
  rw [hG]
  dsimp only
  rw [hD]
  dsimp only
  rw [if_pos hnf, hC]
  rfl

/-- The scaling step when the replica counts agree. -/
theorem reconcileScale_unchanged {σ : Type} (r : PodManagerReconciler σ) (req : Request)
    (pm : PodManager) (d : Deployment) (tr : List Event) (s : σ)
    (h : d.Spec.Replicas = some pm.Spec.Replicas) :
    reconcileScale r req pm d tr s = reconcileStatus r req pm tr s := by
  unfold reconcileScale
  rw [h]
  simp

/-- The scaling step when the replica counts differ and the Update succeeds. -/
theorem reconcileScale_updated {σ : Type} (r : PodManagerReconciler σ) (req : Request)
    (pm : PodManager) (d stored : Deployment) (tr : List Event) (s s1 : σ) (M : Int)
    (hM : d.Spec.Replicas = some M) (hne : M ≠ pm.Spec.Replicas)
    (hU : r.Client.Update (scaled d pm) s = (.ok stored, s1)) :
    reconcileScale r req pm d tr s = reconcileStatus r req pm
      (tr ++ [⟨.update (scaled d pm), .deployment stored⟩]) s1 := by
  unfold scaled at hU
  unfold reconcileScale
  rw [hM]
  dsimp only
  rw [if_pos hne]
  unfold Int32Ptr
  rw [hU]
  rfl

/-- The status step when the restart policy is empty. -/
theorem reconcileStatus_skipped {σ : Type} (r : PodManagerReconciler σ) (req : Request)
    (pm : PodManager) (tr : List Event) (s : σ) (h : pm.Spec.RestartPolicy = "") :
    reconcileStatus r req pm tr s = ⟨.returned Result.zero none, tr, s⟩ := by
  unfold reconcileStatus
  rw [if_neg (by simpa using h)]

/-- The status step when the restart policy is set and its three calls succeed. -/
theorem reconcileStatus_updated {σ : Type} (r : PodManagerReconciler σ) (req : Request)
    (pm latest stored : PodManager) (pods : List Pod) (tr : List Event) (s s1 s2 s3 : σ)
    (h : pm.Spec.RestartPolicy ≠ "")
    (hL : r.Client.List pm.Namespace [("app", pm.Name)] s = (.ok pods, s1))
    (hG : r.Client.GetPodManager req.NamespacedName s1 = (.ok latest, s2))
    (hU : r.Client.StatusUpdate (statusWritten latest pods) s2 = (.ok stored, s3)) :
    reconcileStatus r req pm tr s =
      ⟨.returned Result.zero none,
       tr ++ [⟨listCall pm, .podList pods⟩] ++
         [⟨.getPodManager req.NamespacedName, .podManager latest⟩] ++
         [⟨.statusUpdate (statusWritten latest pods), .podManager stored⟩], s3⟩ := by
  unfold statusWritten at hU
  unfold reconcileStatus
  rw [if_pos h, hL]
  dsimp only
  rw [hG]
  dsimp only
  rw [hU]
  rfl

/-! ## Theorems: the in-memory store -/

/-- Looking up after a map that keeps the looked-up property. -/
theorem find?_map_of_preserved {α : Type} (p : α → Bool) (f : α → α)
    (hf : ∀ o, p (f o) = p o) (l : List α) :
    (l.map f).find? p = (l.find? p).map f := by
  induction l with
  | nil => rfl
  | cons a l ih =>
    simp only [List.map_cons, List.find?_cons, hf]
    cases p a <;> simp [ih]

/-- Looking up after appending an entry under a key that was free. -/
theorem find?_append_of_none {α : Type} (p : α → Bool) (a : α) (l : List α)
    (hl : l.find? p = none) (ha : p a = true) : (l ++ [a]).find? p = some a := by
  induction l with
  | nil => simp [ha]
  | cons b l ih =>
    simp only [List.find?_cons] at hl
    cases hb : p b
    · rw [hb] at hl
      simp [List.find?_cons, hb, ih hl]
    · rw [hb] at hl
      cases hl

/-- A PodManager is stored under its own key. -/
theorem Store.getPodManager_key {s : Store} {key : NamespacedName} {pm : PodManager}
    (h : s.getPodManager key = some pm) : keyOf pm.ObjectMeta = key := by
  unfold Store.getPodManager at h
  simpa using List.find?_some h

/-- A Deployment is stored under its own key. -/
theorem Store.getDeployment_key {s : Store} {key : NamespacedName} {d : Deployment}
    (h : s.getDeployment key = some d) : keyOf d.ObjectMeta = key := by
  unfold Store.getDeployment at h
  simpa using List.find?_some h

/-- After a status write, the PodManager under the key carries the new status and
is otherwise as before. -/
theorem Store.getPodManager_putStatus {s : Store} {key : NamespacedName}
    {pm : PodManager} (obj : PodManager) (h : s.getPodManager key = some pm)
    (hk : keyOf obj.ObjectMeta = key) :
    (s.putStatus obj).getPodManager key = some { pm with Status := obj.Status } := by
  have hpk := Store.getPodManager_key h
  unfold Store.getPodManager at h ⊢
  unfold Store.putStatus
  dsimp only
  rw [find?_map_of_preserved, h]
  · simp [hpk, hk]
  · intro o
    split <;> rfl

/-- After a Deployment is replaced, it is what is stored under its key. -/
theorem Store.getDeployment_putDeployment {s : Store} {d : Deployment} (obj : Deployment)
    (h : s.getDeployment (keyOf obj.ObjectMeta) = some d) :
    (s.putDeployment obj).getDeployment (keyOf obj.ObjectMeta) = some obj := by
  have hdk := Store.getDeployment_key h
  unfold Store.getDeployment at h ⊢
  unfold Store.putDeployment
  dsimp only
  rw [find?_map_of_preserved, h]
  · simp [hdk]
  · intro o
    by_cases ho : keyOf o.ObjectMeta = keyOf obj.ObjectMeta <;> simp [ho]

/-- After a Deployment is added under a free key, it is what is stored there. -/
theorem Store.getDeployment_addDeployment {s : Store} (obj : Deployment)
    (h : s.getDeployment (keyOf obj.ObjectMeta) = none) :
    (s.addDeployment obj).getDeployment (keyOf obj.ObjectMeta) = some obj := by
  unfold Store.getDeployment at h ⊢
  unfold Store.addDeployment
  exact find?_append_of_none _ obj _ h (by simp)

/-- The derived workload is keyed like its PodManager. -/
theorem keyOf_deploymentForPodManager (scheme : Scheme) (m : PodManager) :
    keyOf (deploymentForPodManager scheme m).ObjectMeta = deploymentKey m := by
  have h := deploymentForPodManager_key scheme m
  simp [keyOf, deploymentKey, h.1, h.2]

/-! ## Theorems: runs over the in-memory store -/

/-- The status step over the in-memory store, when the PodManager is stored. -/
theorem mem_reconcileStatus (scheme : Scheme) (req : Request) (pm : PodManager)
    (tr : List Event) (s : Store) (hpm : s.getPodManager req.NamespacedName = some pm) :
    reconcileStatus (memReconciler scheme) req pm tr s =
      if pm.Spec.RestartPolicy = "" then ⟨.returned Result.zero none, tr, s⟩
      else
        ⟨.returned Result.zero none,
         tr ++ [⟨listCall pm, .podList (s.listPods pm.Namespace [("app", pm.Name)])⟩] ++
           [⟨.getPodManager req.NamespacedName, .podManager pm⟩] ++
           [⟨.statusUpdate (statusWritten pm (s.listPods pm.Namespace [("app", pm.Name)])),
             .podManager (statusWritten pm (s.listPods pm.Namespace [("app", pm.Name)]))⟩],
         s.putStatus (statusWritten pm (s.listPods pm.Namespace [("app", pm.Name)]))⟩ := by
  by_cases hrp : pm.Spec.RestartPolicy = ""
  · rw [if_pos hrp]
    exact reconcileStatus_skipped _ req pm tr s hrp
  · rw [if_neg hrp]
    refine reconcileStatus_updated (memReconciler scheme) req pm pm _ _ tr s s s _ hrp rfl ?_ ?_
    · simp [memReconciler, memClient, hpm]
    · have hk0 : keyOf pm.ObjectMeta = req.NamespacedName := Store.getPodManager_key hpm
      have hk : keyOf (statusWritten pm (s.listPods pm.Namespace [("app", pm.Name)])).ObjectMeta
          = req.NamespacedName := hk0
      simp only [memReconciler, memClient, hk, hpm]
      rfl

/-- The run over the in-memory store when the Deployment is absent: it is created
as derived, and the status step follows. -/
theorem mem_Reconcile_create (scheme : Scheme) (req : Request) (s : Store) (pm : PodManager)
    (hpm : s.getPodManager req.NamespacedName = some pm)
    (hnone : s.getDeployment (deploymentKey pm) = none) :
    Reconcile (memReconciler scheme) req s =
      reconcileStatus (memReconciler scheme) req pm
        [⟨.getPodManager req.NamespacedName, .podManager pm⟩,
         ⟨.getDeployment (deploymentKey pm), .failed .notFound⟩,
         ⟨.create (deploymentForPodManager scheme pm),
           .deployment (deploymentForPodManager scheme pm)⟩]
        (s.addDeployment (deploymentForPodManager scheme pm)) := by
  rw [Reconcile_created (memReconciler scheme) req s s s
    (s.addDeployment (deploymentForPodManager scheme pm)) pm .notFound
    (deploymentForPodManager scheme pm)
    (by simp [memReconciler, memClient, hpm])
    (by simp [memReconciler, memClient, hnone]) rfl
    (by simp [memReconciler, memClient, keyOf_deploymentForPodManager, hnone])]
  exact reconcileScale_unchanged _ req pm _ _ _ (by rw [deploymentForPodManager_Spec])

/-- The run over the in-memory store when the Deployment is there with the
desired replica count: the status step follows at once. -/
theorem mem_Reconcile_keep (scheme : Scheme) (req : Request) (s : Store) (pm : PodManager)
    (d : Deployment) (hpm : s.getPodManager req.NamespacedName = some pm)
    (hd : s.getDeployment (deploymentKey pm) = some d)
    (hr : d.Spec.Replicas = some pm.Spec.Replicas) :
    Reconcile (memReconciler scheme) req s =
      reconcileStatus (memReconciler scheme) req pm
        [⟨.getPodManager req.NamespacedName, .podManager pm⟩,
         ⟨.getDeployment (deploymentKey pm), .deployment d⟩] s := by
  rw [Reconcile_found (memReconciler scheme) req s s s pm d
    (by simp [memReconciler, memClient, hpm])
    (by simp [memReconciler, memClient, hd])]
  exact reconcileScale_unchanged _ req pm _ _ _ hr

/-- The run over the in-memory store when the Deployment is there with another
replica count: it is updated, and the status step follows. -/
theorem mem_Reconcile_scale (scheme : Scheme) (req : Request) (s : Store) (pm : PodManager)
    (d : Deployment) (M : Int) (hpm : s.getPodManager req.NamespacedName = some pm)
    (hd : s.getDeployment (deploymentKey pm) = some d)
    (hM : d.Spec.Replicas = some M) (hne : M ≠ pm.Spec.Replicas) :
    Reconcile (memReconciler scheme) req s =
      reconcileStatus (memReconciler scheme) req pm
        ([⟨.getPodManager req.NamespacedName, .podManager pm⟩,
          ⟨.getDeployment (deploymentKey pm), .deployment d⟩] ++
         [⟨.update (scaled d pm), .deployment (scaled d pm)⟩])
        (s.putDeployment (scaled d pm)) := by
  rw [Reconcile_found (memReconciler scheme) req s s s pm d
    (by simp [memReconciler, memClient, hpm])
    (by simp [memReconciler, memClient, hd])]
  have hk0 : keyOf d.ObjectMeta = deploymentKey pm := Store.getDeployment_key hd
  have hk : keyOf (scaled d pm).ObjectMeta = deploymentKey pm := hk0
  exact reconcileScale_updated _ req pm d _ _ s _ M hM hne
    (by simp [memReconciler, memClient, hk, hd])

/-- The run over the in-memory store when the Deployment is there without a
replica count: the dereference panics. -/
theorem mem_Reconcile_nil (scheme : Scheme) (req : Request) (s : Store) (pm : PodManager)
    (d : Deployment) (hpm : s.getPodManager req.NamespacedName = some pm)
    (hd : s.getDeployment (deploymentKey pm) = some d)
    (hr : d.Spec.Replicas = none) :
    Reconcile (memReconciler scheme) req s =
      ⟨.panicked,
       [⟨.getPodManager req.NamespacedName, .podManager pm⟩,
        ⟨.getDeployment (deploymentKey pm), .deployment d⟩], s⟩ := by
  rw [Reconcile_found (memReconciler scheme) req s s s pm d
    (by simp [memReconciler, memClient, hpm])
    (by simp [memReconciler, memClient, hd])]
  unfold reconcileScale
  rw [hr]

/-- Convergence over the in-memory store: after a successful run the PodManager
is stored with the same metadata and spec, and its Deployment is stored with the
desired replica count. -/
theorem mem_Reconcile_converges (scheme : Scheme) (req : Request) (s : Store)
    (pm : PodManager) (hpm : s.getPodManager req.NamespacedName = some pm)
    (hok : (Reconcile (memReconciler scheme) req s).outcome = .returned Result.zero none) :
    ∃ (pm1 : PodManager) (d1 : Deployment),
      (Reconcile (memReconciler scheme) req s).store.getPodManager req.NamespacedName
        = some pm1 ∧
      pm1.ObjectMeta = pm.ObjectMeta ∧ pm1.Spec = pm.Spec ∧
      (Reconcile (memReconciler scheme) req s).store.getDeployment (deploymentKey pm)
        = some d1 ∧
      d1.Spec.Replicas = some pm.Spec.Replicas := by
  have hstatus : ∀ (tr : List Event) (s1 : Store) (d1 : Deployment),
      s1.getPodManager req.NamespacedName = some pm →
      s1.getDeployment (deploymentKey pm) = some d1 →
      d1.Spec.Replicas = some pm.Spec.Replicas →
      ∃ (pm1 : PodManager) (d1 : Deployment),
        (reconcileStatus (memReconciler scheme) req pm tr s1).store.getPodManager
          req.NamespacedName = some pm1 ∧
        pm1.ObjectMeta = pm.ObjectMeta ∧ pm1.Spec = pm.Spec ∧
        (reconcileStatus (memReconciler scheme) req pm tr s1).store.getDeployment
          (deploymentKey pm) = some d1 ∧
        d1.Spec.Replicas = some pm.Spec.Replicas := by
    intro tr s1 d1 h1 h2 h3
    rw [mem_reconcileStatus scheme req pm tr s1 h1]
    by_cases hrp : pm.Spec.RestartPolicy = ""
    · rw [if_pos hrp]
      exact ⟨pm, d1, h1, rfl, rfl, h2, h3⟩
    · rw [if_neg hrp]
      have hk0 : keyOf pm.ObjectMeta = req.NamespacedName := Store.getPodManager_key h1
      exact ⟨_, d1, Store.getPodManager_putStatus _ h1 hk0, rfl, rfl, h2, h3⟩
  rcases hd : s.getDeployment (deploymentKey pm) with _ | d
  · rw [mem_Reconcile_create scheme req s pm hpm hd]
    refine hstatus _ _ (deploymentForPodManager scheme pm) hpm ?_ ?_
    · have := Store.getDeployment_addDeployment (s := s) (deploymentForPodManager scheme pm)
        (by rw [keyOf_deploymentForPodManager]; exact hd)
      rwa [keyOf_deploymentForPodManager] at this
    · rw [deploymentForPodManager_Spec]
  · rcases hr : d.Spec.Replicas with _ | M
    · rw [mem_Reconcile_nil scheme req s pm d hpm hd hr] at hok
      cases hok
    · by_cases hne : M = pm.Spec.Replicas
      · rw [mem_Reconcile_keep scheme req s pm d hpm hd (by rw [hr, hne])]
        exact hstatus _ _ d hpm hd (by rw [hr, hne])
      · rw [mem_Reconcile_scale scheme req s pm d M hpm hd hr hne]
        have hk0 : keyOf d.ObjectMeta = deploymentKey pm := Store.getDeployment_key hd
        have hk : keyOf (scaled d pm).ObjectMeta = deploymentKey pm := hk0
        refine hstatus _ _ (scaled d pm) hpm ?_ rfl
        have := Store.getDeployment_putDeployment (s := s) (d := d) (scaled d pm)
          (by rw [hk]; exact hd)
        rwa [hk] at this

/-- The run over an in-memory store that has converged: two reads, then the
status step, and no write of the Deployment. -/
theorem mem_Reconcile_converged (scheme : Scheme) (req : Request) (s : Store)
    (pm : PodManager) (d : Deployment)
    (hpm : s.getPodManager req.NamespacedName = some pm)
    (hd : s.getDeployment (deploymentKey pm) = some d)
    (hr : d.Spec.Replicas = some pm.Spec.Replicas) :
    (Reconcile (memReconciler scheme) req s).outcome = .returned Result.zero none ∧
      (Reconcile (memReconciler scheme) req s).trace.countP
        (fun e => e.call.isDeploymentWrite) = 0 ∧
      (Reconcile (memReconciler scheme) req s).trace.countP
        (fun e => e.call.isStatusUpdate) = (if pm.Spec.RestartPolicy = "" then 0 else 1) ∧
      (Reconcile (memReconciler scheme) req s).trace.countP
        (fun e => e.call.isMutating) = (if pm.Spec.RestartPolicy = "" then 0 else 1) := by
  rw [mem_Reconcile_keep scheme req s pm d hpm hd hr, mem_reconcileStatus scheme req pm _ s hpm]
  by_cases hrp : pm.Spec.RestartPolicy = ""
  · simp [hrp, Call.isDeploymentWrite, Call.isStatusUpdate, Call.isMutating]
  · simp [hrp, Call.isDeploymentWrite, Call.isStatusUpdate, Call.isMutating, listCall,
      List.countP_cons]

/-- A run whose first Get succeeds starts its trace with that Get and its answer. -/
theorem Reconcile_head {σ : Type} (r : PodManagerReconciler σ) (req : Request)
    (s s1 : σ) (pm : PodManager)
    (hG : r.Client.GetPodManager req.NamespacedName s = (.ok pm, s1)) :
    (Reconcile r req s).trace.head?
      = some ⟨.getPodManager req.NamespacedName, .podManager pm⟩ := by
  unfold Reconcile
  rw [hG]
  dsimp only
  rcases r.Client.GetDeployment { Name := pm.Name, Namespace := pm.Namespace } s1
    with ⟨err | d, s2⟩
  · dsimp only
    split
    · rcases r.Client.Create (deploymentForPodManager r.Scheme pm) s2 with ⟨err1 | stored, s3⟩
      · rfl
      · dsimp only
        obtain ⟨tail, h1, -⟩ := reconcileScale_path r req pm stored
          ([⟨.getPodManager req.NamespacedName, .podManager pm⟩] ++
            [⟨.getDeployment { Name := pm.Name, Namespace := pm.Namespace }, .failed err⟩] ++
            [⟨.create (deploymentForPodManager r.Scheme pm), .deployment stored⟩]) s3
        rw [h1]
        rfl
    · rfl
  · dsimp only
    obtain ⟨tail, h1, -⟩ := reconcileScale_path r req pm d
      ([⟨.getPodManager req.NamespacedName, .podManager pm⟩] ++
        [⟨.getDeployment { Name := pm.Name, Namespace := pm.Namespace }, .deployment d⟩]) s2
    rw [h1]
    rfl

/-- With an empty restart policy, every call after the first Get is a call on
the Deployment. -/
theorem Reconcile_skips_status {σ : Type} (r : PodManagerReconciler σ) (req : Request)
    (s : σ) (c0 : Call) (pm : PodManager)
    (h0 : (Reconcile r req s).trace.head? = some ⟨c0, .podManager pm⟩)
    (hrp : pm.Spec.RestartPolicy = "") :
    ∃ mid, (Reconcile r req s).trace
        = ⟨.getPodManager req.NamespacedName, .podManager pm⟩ :: mid ∧
      ∀ e ∈ mid, e.call.isWorkloadCall = true := by
  obtain ⟨mid, tail, ht, hmid, htail⟩ := ReconcilePath_split (Reconcile_path r req s) c0 pm h0
  generalize (Reconcile r req s).outcome = o at htail
  have htl : tail = [] := by
    rcases htail with hsp | ⟨h, -⟩
    · cases hsp with
      | skipped h => rfl
      | listFailed h e => exact absurd hrp h
      | refetchFailed h pods e => exact absurd hrp h
      | updateFailed h pods latest e => exact absurd hrp h
      | updated h pods latest stored => exact absurd hrp h
    · exact h
  rw [htl, List.append_nil] at ht
  exact ⟨mid, ht, hmid⟩

/-! ## Theorems: the reconciler over the in-memory store -/

/-- C2: for a stored PodManager with replicas N and a store holding no Deployment
under its (namespace, name), one Reconcile over the in-memory store succeeds and
leaves the derived Deployment stored under that identity, with replica count N;
its only write of a Deployment is the Create of the derived workload, so no
Update follows. -/
theorem Reconcile_creates_workload (scheme : Scheme) (req : Request) (s : Store)
    (pm : PodManager) (hpm : s.getPodManager req.NamespacedName = some pm)
    (hnone : s.getDeployment (deploymentKey pm) = none) :
    (Reconcile (memReconciler scheme) req s).outcome = .returned Result.zero none ∧
      (Reconcile (memReconciler scheme) req s).store.getDeployment (deploymentKey pm)
        = some (deploymentForPodManager scheme pm) ∧
      (deploymentForPodManager scheme pm).Spec.Replicas = some pm.Spec.Replicas ∧
      (Reconcile (memReconciler scheme) req s).trace.filter
          (fun e => e.call.isDeploymentWrite)
        = [⟨.create (deploymentForPodManager scheme pm),
            .deployment (deploymentForPodManager scheme pm)⟩] := by
  have hstored : (s.addDeployment (deploymentForPodManager scheme pm)).getDeployment
      (deploymentKey pm) = some (deploymentForPodManager scheme pm) := by
    have := Store.getDeployment_addDeployment (s := s) (deploymentForPodManager scheme pm)
      (by rw [keyOf_deploymentForPodManager]; exact hnone)
    rwa [keyOf_deploymentForPodManager] at this
  have hpm1 : (s.addDeployment (deploymentForPodManager scheme pm)).getPodManager
      req.NamespacedName = some pm := hpm
  rw [mem_Reconcile_create scheme req s pm hpm hnone,
    mem_reconcileStatus scheme req pm _ _ hpm1]
  by_cases hrp : pm.Spec.RestartPolicy = ""
  · rw [if_pos hrp]
    refine ⟨rfl, hstored, by rw [deploymentForPodManager_Spec], ?_⟩
    simp [Call.isDeploymentWrite]
  · rw [if_neg hrp]
    refine ⟨rfl, hstored, by rw [deploymentForPodManager_Spec], ?_⟩
    simp [Call.isDeploymentWrite, listCall]

/-- C2 at the example scenario: `web` with three replicas and no workload yet. -/
theorem Reconcile_creates_workload_witness :
    (Reconcile (memReconciler exampleScheme) webRequest freshStore).outcome
        = .returned Result.zero none ∧
      (Reconcile (memReconciler exampleScheme) webRequest freshStore).store.getDeployment
          (deploymentKey webManager)
        = some (deploymentForPodManager exampleScheme webManager) ∧
      (deploymentForPodManager exampleScheme webManager).Spec.Replicas
        = some webManager.Spec.Replicas ∧
      (Reconcile (memReconciler exampleScheme) webRequest freshStore).trace.filter
          (fun e => e.call.isDeploymentWrite)
        = [⟨.create (deploymentForPodManager exampleScheme webManager),
            .deployment (deploymentForPodManager exampleScheme webManager)⟩] :=
  Reconcile_creates_workload exampleScheme webRequest freshStore webManager rfl rfl

/-- C4 (counterexample): at the example scenario both invocations succeed and the
spec stored after the first is the spec it read, yet the second invocation makes
a mutating call, the status Update. -/
theorem second_Reconcile_updates_status_again :
    (Reconcile (memReconciler exampleScheme) webRequest freshStore).outcome
        = .returned Result.zero none ∧
      ((Reconcile (memReconciler exampleScheme) webRequest freshStore).store.getPodManager
          webRequest.NamespacedName).map (fun o => o.Spec) = some webManager.Spec ∧
      (Reconcile (memReconciler exampleScheme) webRequest
          (Reconcile (memReconciler exampleScheme) webRequest freshStore).store).outcome
        = .returned Result.zero none ∧
      (Reconcile (memReconciler exampleScheme) webRequest
          (Reconcile (memReconciler exampleScheme) webRequest freshStore).store).trace.countP
        (fun e => e.call.isMutating) = 1 ∧
      (Reconcile (memReconciler exampleScheme) webRequest
          (Reconcile (memReconciler exampleScheme) webRequest freshStore).store).trace.any
        (fun e => e.call.isStatusUpdate) = true := by
  decide

/-- C4 (amended): when Reconcile over the in-memory store is invoked twice in
succession for the identity of a stored PodManager and the first invocation
succeeds, the second succeeds too and performs no Create and no Update of the
Deployment; it performs no mutating call at all when the restartPolicy is empty,
and exactly one, the status Update, when it is not. -/
theorem second_Reconcile_writes_no_workload (scheme : Scheme) (req : Request) (s : Store)
    (pm : PodManager) (hpm : s.getPodManager req.NamespacedName = some pm)
    (hok : (Reconcile (memReconciler scheme) req s).outcome = .returned Result.zero none) :
    (Reconcile (memReconciler scheme) req
        (Reconcile (memReconciler scheme) req s).store).outcome
        = .returned Result.zero none ∧
      (Reconcile (memReconciler scheme) req
          (Reconcile (memReconciler scheme) req s).store).trace.countP
        (fun e => e.call.isDeploymentWrite) = 0 ∧
      (Reconcile (memReconciler scheme) req
          (Reconcile (memReconciler scheme) req s).store).trace.countP
        (fun e => e.call.isStatusUpdate) = (if pm.Spec.RestartPolicy = "" then 0 else 1) ∧
      (Reconcile (memReconciler scheme) req
          (Reconcile (memReconciler scheme) req s).store).trace.countP
        (fun e => e.call.isMutating) = (if pm.Spec.RestartPolicy = "" then 0 else 1) := by
  obtain ⟨pm1, d1, h1, hmeta, hspec, h2, h3⟩ := mem_Reconcile_converges scheme req s pm hpm hok
  have hkey : deploymentKey pm1 = deploymentKey pm := by
    unfold deploymentKey PodManager.Name PodManager.Namespace
    rw [hmeta]
  have := mem_Reconcile_converged scheme req _ pm1 d1 h1 (by rw [hkey]; exact h2)
    (by rw [hspec]; exact h3)
  rw [hspec] at this
  exact this

/-- C4 (amended) at the example scenario. -/
theorem second_Reconcile_writes_no_workload_witness :
    (Reconcile (memReconciler exampleScheme) webRequest
        (Reconcile (memReconciler exampleScheme) webRequest freshStore).store).outcome
        = .returned Result.zero none ∧
      (Reconcile (memReconciler exampleScheme) webRequest
          (Reconcile (memReconciler exampleScheme) webRequest freshStore).store).trace.countP
        (fun e => e.call.isDeploymentWrite) = 0 ∧
      (Reconcile (memReconciler exampleScheme) webRequest
          (Reconcile (memReconciler exampleScheme) webRequest freshStore).store).trace.countP
        (fun e => e.call.isStatusUpdate)
        = (if webManager.Spec.RestartPolicy = "" then 0 else 1) ∧
      (Reconcile (memReconciler exampleScheme) webRequest
          (Reconcile (memReconciler exampleScheme) webRequest freshStore).store).trace.countP
        (fun e => e.call.isMutating)
        = (if webManager.Spec.RestartPolicy = "" then 0 else 1) :=
  second_Reconcile_writes_no_workload exampleScheme webRequest freshStore webManager rfl
    (by decide)

/-- C10: for a stored PodManager whose restartPolicy is the empty string, a
Reconcile over the in-memory store makes no pod List and no status Update and
gets the PodManager once only (no re-fetch): every call after the first Get is a
call on the Deployment. The stored PodManagers, and so the status stored under
the identity, are after the run what they were before, whatever pods there are
and however the run ends. -/
theorem empty_restartPolicy_leaves_status (scheme : Scheme) (req : Request) (s : Store)
    (pm : PodManager) (hpm : s.getPodManager req.NamespacedName = some pm)
    (hrp : pm.Spec.RestartPolicy = "") :
    (Reconcile (memReconciler scheme) req s).trace.countP (fun e => e.call.isList) = 0 ∧
      (Reconcile (memReconciler scheme) req s).trace.countP
        (fun e => e.call.isStatusUpdate) = 0 ∧
      (Reconcile (memReconciler scheme) req s).trace.countP
        (fun e => e.call.isGetPodManager) = 1 ∧
      (∀ e ∈ (Reconcile (memReconciler scheme) req s).trace.tail,
        e.call.isWorkloadCall = true) ∧
      (Reconcile (memReconciler scheme) req s).store.PodManagers = s.PodManagers ∧
      (Reconcile (memReconciler scheme) req s).store.getPodManager req.NamespacedName
        = some pm := by
  have hG : (memReconciler scheme).Client.GetPodManager req.NamespacedName s = (.ok pm, s) := by
    simp [memReconciler, memClient, hpm]
  obtain ⟨mid, ht, hmid⟩ := Reconcile_skips_status (memReconciler scheme) req s _ pm
    (Reconcile_head (memReconciler scheme) req s s pm hG) hrp
  have hstore : (Reconcile (memReconciler scheme) req s).store.PodManagers = s.PodManagers := by
    rcases hd : s.getDeployment (deploymentKey pm) with _ | d
    · rw [mem_Reconcile_create scheme req s pm hpm hd, reconcileStatus_skipped _ _ _ _ _ hrp]
      rfl
    · rcases hr : d.Spec.Replicas with _ | M
      · rw [mem_Reconcile_nil scheme req s pm d hpm hd hr]
      · by_cases hne : M = pm.Spec.Replicas
        · rw [mem_Reconcile_keep scheme req s pm d hpm hd (by rw [hr, hne]),
            reconcileStatus_skipped _ _ _ _ _ hrp]
        · rw [mem_Reconcile_scale scheme req s pm d M hpm hd hr hne,
            reconcileStatus_skipped _ _ _ _ _ hrp]
          rfl
  refine ⟨?_, ?_, ?_, ?_, hstore, ?_⟩
  · rw [ht, List.countP_cons_of_neg]
    · rw [List.countP_eq_zero]
      intro e he
      have := hmid e he
      cases hc : e.call <;> simp [hc, Call.isWorkloadCall, Call.isList] at this ⊢
    · simp [Call.isList]
  · rw [ht, List.countP_cons_of_neg]
    · rw [List.countP_eq_zero]
      intro e he
      have := hmid e he
      cases hc : e.call <;> simp [hc, Call.isWorkloadCall, Call.isStatusUpdate] at this ⊢
    · simp [Call.isStatusUpdate]
  · rw [ht, List.countP_cons_of_pos]
    · rw [Nat.add_left_eq_self, List.countP_eq_zero]
      intro e he
      have := hmid e he
      cases hc : e.call <;> simp [hc, Call.isWorkloadCall, Call.isGetPodManager] at this ⊢
    · simp [Call.isGetPodManager]
  · rw [ht]
    exact hmid
  · unfold Store.getPodManager at hpm ⊢
    rw [hstore]
    exact hpm

/-- C10 at a store holding two matching pods: the status stays at zero replicas. -/
theorem empty_restartPolicy_leaves_status_witness :
    (Reconcile (memReconciler exampleScheme) webRequest plainStore).trace.countP
        (fun e => e.call.isList) = 0 ∧
      (Reconcile (memReconciler exampleScheme) webRequest plainStore).trace.countP
        (fun e => e.call.isStatusUpdate) = 0 ∧
      (Reconcile (memReconciler exampleScheme) webRequest plainStore).trace.countP
        (fun e => e.call.isGetPodManager) = 1 ∧
      (∀ e ∈ (Reconcile (memReconciler exampleScheme) webRequest plainStore).trace.tail,
        e.call.isWorkloadCall = true) ∧
      (Reconcile (memReconciler exampleScheme) webRequest plainStore).store.PodManagers
        = plainStore.PodManagers ∧
      (Reconcile (memReconciler exampleScheme) webRequest plainStore).store.getPodManager
          webRequest.NamespacedName
        = some plainManager :=
  empty_restartPolicy_leaves_status exampleScheme webRequest plainStore plainManager rfl rfl

end PodManagerOperator
